import Mathlib

/-!
# Session and move arbitration of the two-player board game server

A shallow embedding of `game.go`, `piece.go`, `manager.go` and the data types of
`player.go`.

Conventions of the embedding:

* A Go run-time panic (nil pointer dereference, index out of range, close of a
  closed channel) is a value of `Panic`; every operation that can panic returns
  `Except Panic _`.
* A Go `error` return value is an `Option String` (`none` is `nil`).
* A pointer `*player` or `*game` is represented by the record of the pointee; two
  player pointers are equal exactly when their ids are equal (ids are fresh UUIDs).
* A Go map is a list of its entries; the list order stands for the (unspecified)
  iteration order of `range`. The theorems hold for every list, hence for every
  iteration order.
* A send `p.nextFrame <- f` is recorded as a `Send` in the list of frames the
  operation emits. The channel of a player is named by the id of the player, and
  the set of closed channels is passed explicitly to the operations that close.
* `int8` coordinates are integers; they are only compared, never computed with.
* The registry methods that send frames return, next to the new registry, the
  sequence of their events in program order: lock and unlock of the mutex, reads
  and writes of the two maps, and the sends. A call of `log.Fatal` is the outcome
  `Panic.fatal`.
-/

namespace Gukesh

/-! ## Constants and identifiers (`game.go`, `player.go`) -/

/-- Status message for a move that is rejected as invalid. -/
def _invalidMoveMsg : String := "invalid move"

/-- Status message for a move submitted out of turn. -/
def _notYourTurnMsg : String := "not your turn"

/-- GameId uniquely identifies a game. -/
abbrev GameId := String

/-- PlayerId uniquely identifies a player. -/
abbrev PlayerId := String

/-- The abnormal ends of the Go program that the embedding distinguishes: the
run-time panics, and `fatal` for a call of `log.Fatal`, which exits the process. -/
inductive Panic where
  | nilPointerDereference
  | indexOutOfRange
  | closeOfClosedChannel
  | sendOnClosedChannel
  | fatal
  deriving DecidableEq, Repr

/-! ## Wire types (`player.go`) -/

/-- Pos denotes a position on the chess board; both fields are `int8` in the source. -/
structure Pos where
  Row : Int
  Col : Int
  deriving DecidableEq, Repr

/-- Move denotes a move by a player. -/
structure Move where
  PlayerId : PlayerId
  From : Pos
  To : Pos
  deriving DecidableEq, Repr

/-- PieceView is the player facing view of a piece; the zero value is the empty cell. -/
structure PieceView where
  IsWhite : Bool
  Name : String
  deriving DecidableEq, Repr

/-- Frame holds the contents of a player's current screen. -/
structure Frame where
  GameId : GameId
  IsGameStarted : Bool
  IsWhite : Bool
  IsTurn : Bool
  Board : List (List PieceView)
  Msg : String
  deriving DecidableEq, Repr

/-- The fields of `player` that the game logic reads. The channel `nextFrame` is
represented by the frames sent on it, see `Send`. -/
structure player where
  id : PlayerId
  isWhite : Bool
  deriving DecidableEq, Repr

/-- One send `p.nextFrame <- frame`; `chan` is the id of the player owning the channel. -/
structure Send where
  chan : PlayerId
  frame : Frame
  deriving DecidableEq, Repr

/-! ## Pieces (`piece.go`) -/

/-- The six implementations of the `piece` interface, each with its two fields
`white` and `nameVal`. -/
inductive piece where
  | pawn (white : Bool) (nameVal : String)
  | king (white : Bool) (nameVal : String)
  | queen (white : Bool) (nameVal : String)
  | knight (white : Bool) (nameVal : String)
  | bishop (white : Bool) (nameVal : String)
  | rook (white : Bool) (nameVal : String)
  deriving DecidableEq, Repr

/-- The board `[8][8]piece`; `none` is the nil interface value (an empty cell). -/
abbrev Board := Fin 8 → Fin 8 → Option piece

def newPawn (white : Bool) : piece := piece.pawn white "pawn"

def newKing (white : Bool) : piece := piece.king white "king"

def newQueen (white : Bool) : piece := piece.queen white "queen"

def newKnight (white : Bool) : piece := piece.knight white "knight"

def newBishop (white : Bool) : piece := piece.bishop white "bishop"

def newRook (white : Bool) : piece := piece.rook white "rook"

/-- Method `isWhite` of the six piece types. -/
def piece.isWhite : piece → Bool
  | .pawn w _ => w
  | .queen w _ => w
  | .king w _ => w
  | .rook w _ => w
  | .knight w _ => w
  | .bishop w _ => w

/-- Method `name` of the six piece types. -/
def piece.name : piece → String
  | .pawn _ n => n
  | .queen _ n => n
  | .king _ n => n
  | .rook _ n => n
  | .knight _ n => n
  | .bishop _ n => n

/-- Method `checkBounds` of `Move`: an error if the destination is out of bounds. -/
def Move.checkBounds (m : Move) : Option String :=
  if m.To.Row < 0 ∨ m.To.Row > 7 ∨ m.To.Col < 0 ∨ m.To.Col > 7 then
    some _invalidMoveMsg
  else
    none

/-- Index check of an `int8` used as an index into an array of length 8. -/
def boardIndex (i : Int) : Except Panic (Fin 8) :=
  if h : 0 ≤ i ∧ i < 8 then
    .ok ⟨i.toNat, by omega⟩
  else
    .error Panic.indexOutOfRange

/-- Assignment `board[r][c] = v`. -/
def setCell (board : Board) (r c : Fin 8) (v : Option piece) : Board :=
  fun i j => if i = r ∧ j = c then v else board i j

/-- The common body of the six `move` methods, for the receiver `p`: the board
after the call and the returned error. -/
def moveBody (p : piece) (m : Move) (board : Board) : Except Panic (Board × Option String) :=
  match m.checkBounds with
  | some err => .ok (board, some err)
  | none => do
    let fr ← boardIndex m.From.Row
    let fc ← boardIndex m.From.Col
    let board1 := setCell board fr fc none
    let tr ← boardIndex m.To.Row
    let tc ← boardIndex m.To.Col
    .ok (setCell board1 tr tc (some p), none)

/-- Method `move` of the `piece` interface, dispatched on the dynamic type. -/
def piece.move (p : piece) (m : Move) (board : Board) : Except Panic (Board × Option String) :=
  match p with
  | .pawn _ _ => moveBody p m board
  | .king _ _ => moveBody p m board
  | .queen _ _ => moveBody p m board
  | .rook _ _ => moveBody p m board
  | .bishop _ _ => moveBody p m board
  | .knight _ _ => moveBody p m board

/-! ## The game (`game.go`) -/

/-- The game state. -/
structure game where
  id : GameId
  board : Board
  playerIdToPlayer : List player
  whoseTurn : Option player

/-- The zero value of `[8][8]piece`. -/
def emptyBoard : Board := fun _ _ => none

/-- Function `newBoard` constructs a new board. -/
def newBoard : Board :=
  let board := (List.finRange 8).foldl
    (fun b i => setCell (setCell b 1 i (some (newPawn false))) 6 i (some (newPawn true)))
    emptyBoard
  let board := setCell board 0 0 (some (newRook false))
  let board := setCell board 0 1 (some (newKnight false))
  let board := setCell board 0 2 (some (newBishop false))
  let board := setCell board 0 3 (some (newQueen false))
  let board := setCell board 0 4 (some (newKing false))
  let board := setCell board 0 5 (some (newBishop false))
  let board := setCell board 0 6 (some (newKnight false))
  let board := setCell board 0 7 (some (newRook false))
  let board := setCell board 7 0 (some (newRook true))
  let board := setCell board 7 1 (some (newKnight true))
  let board := setCell board 7 2 (some (newBishop true))
  let board := setCell board 7 3 (some (newQueen true))
  let board := setCell board 7 4 (some (newKing true))
  let board := setCell board 7 5 (some (newBishop true))
  let board := setCell board 7 6 (some (newKnight true))
  let board := setCell board 7 7 (some (newRook true))
  board

/-- Map assignment `players[p.id] = p`: an existing entry under the key is
replaced, otherwise a new entry is added. -/
def mapStore (players : List player) (p : player) : List player :=
  if players.any (fun q => q.id == p.id) then
    players.map (fun q => if q.id = p.id then p else q)
  else
    players ++ [p]

/-- The display transformation of one cell in `createNextFrame`. -/
def pieceView : Option piece → PieceView
  | none => { IsWhite := false, Name := "" }
  | some pc => { IsWhite := pc.isWhite, Name := pc.name }

/-- The display transformation of the board in `createNextFrame`, row by row. -/
def boardView (board : Board) : List (List PieceView) :=
  (List.finRange 8).map (fun r => (List.finRange 8).map (fun c => pieceView (board r c)))

/-- Method `createNextFrame` creates the next frame for a player's screen. It
dereferences `g.whoseTurn`. -/
def game.createNextFrame (g : game) (p : player) (msg : String) : Except Panic Frame :=
  match g.whoseTurn with
  | none => .error Panic.nilPointerDereference
  | some t =>
    .ok { GameId := g.id
          IsGameStarted := g.playerIdToPlayer.length == 2
          IsTurn := t.id == p.id
          IsWhite := p.isWhite
          Msg := msg
          Board := boardView g.board }

/-- The loop of `redrawAllScreens` over the players still to be served. -/
def game.redrawLoop (g : game) : List player → Except Panic (List Send)
  | [] => .ok []
  | p :: rest => do
    let frame ← g.createNextFrame p ""
    let sends ← g.redrawLoop rest
    .ok ({ chan := p.id, frame := frame } :: sends)

/-- Method `redrawAllScreens` redraws the screen for all players. -/
def game.redrawAllScreens (g : game) : Except Panic (List Send) :=
  g.redrawLoop g.playerIdToPlayer

/-- Method `drawScreen` redraws one player's screen. -/
def game.drawScreen (g : game) (p : player) (msg : String) : Except Panic (List Send) := do
  let frame ← g.createNextFrame p msg
  .ok [{ chan := p.id, frame := frame }]

/-- Function `newGame` constructs a new game and adds the first player; `id`
stands for the fresh `uuid.NewString()`. -/
def newGame (id : GameId) (p : player) : Except Panic (game × List Send) := do
  let g : game :=
    { id := id, board := newBoard, playerIdToPlayer := [p], whoseTurn := none }
  let g := if p.isWhite then { g with whoseTurn := some p } else g
  let sends ← g.redrawAllScreens
  .ok (g, sends)

/-- Method `addSecondPlayer` adds the second player to the game. -/
def game.addSecondPlayer (g : game) (p : player) : Except Panic (game × List Send) := do
  let g := { g with playerIdToPlayer := mapStore g.playerIdToPlayer p }
  let g := if p.isWhite then { g with whoseTurn := some p } else g
  let sends ← g.redrawAllScreens
  .ok (g, sends)

/-- The body of the first loop of `handleMove`, on the pair `(player, other_player)`. -/
def findStep (playerId : PlayerId) (acc : Option player × Option player) (p : player) :
    Option player × Option player :=
  if p.id = playerId then (some p, acc.2) else (acc.1, some p)

/-- The first loop of `handleMove`: the pair `(player, other_player)` after
ranging over the players. -/
def findPlayers (players : List player) (playerId : PlayerId) : Option player × Option player :=
  players.foldl (findStep playerId) (none, none)

/-- Method `handleMove` handles a move and redraws the screens with the outcome. -/
def game.handleMove (g : game) (m : Move) : Except Panic (game × List Send) :=
  let found := findPlayers g.playerIdToPlayer m.PlayerId
  match g.whoseTurn, found.1 with
  | none, _ => .error Panic.nilPointerDereference
  | some _, none => .error Panic.nilPointerDereference
  | some turn, some player =>
    if turn.id ≠ player.id then do
      let sends ← g.drawScreen player _notYourTurnMsg
      .ok (g, sends)
    else do
      let r ← boardIndex m.From.Row
      let c ← boardIndex m.From.Col
      match g.board r c with
      | none => do
        let sends ← g.drawScreen player _invalidMoveMsg
        .ok (g, sends)
      | some pc => do
        let (board, _) ← pc.move m g.board
        let g := { g with board := board }
        let g := { g with whoseTurn := found.2 }
        let sends ← g.redrawAllScreens
        .ok (g, sends)

/-- The move consumer of `runGames` restricted to one game: the moves are handled
one after the other, each on the state the previous one left. -/
def game.handleMoves (g : game) : List Move → Except Panic (game × List Send)
  | [] => .ok (g, [])
  | m :: rest => do
    let (g1, sends1) ← g.handleMove m
    let (g2, sends2) ← g1.handleMoves rest
    .ok (g2, sends1 ++ sends2)

/-- The operations the registry applies to an existing game: a join
(`addSecondPlayer`) or a dispatched move (`handleMove`). -/
inductive Action where
  | addSecondPlayer (p : player)
  | handleMove (m : Move)
  deriving DecidableEq, Repr

/-- One operation applied to a game. -/
def game.step (g : game) : Action → Except Panic (game × List Send)
  | .addSecondPlayer p => g.addSecondPlayer p
  | .handleMove m => g.handleMove m

/-- A sequence of operations applied to a game, in order; a panic ends the run. -/
def game.run (g : game) : List Action → Except Panic (game × List Send)
  | [] => .ok (g, [])
  | a :: rest => do
    let (g1, sends1) ← g.step a
    let (g2, sends2) ← g1.run rest
    .ok (g2, sends1 ++ sends2)

/-- The number of joins in a sequence of operations. -/
def countJoins : List Action → Nat
  | [] => 0
  | .addSecondPlayer _ :: rest => countJoins rest + 1
  | .handleMove _ :: rest => countJoins rest

/-- A session from its creation: `newGame` for the host, then the operations the
registry applies to the game, in order. -/
def playSession (id : GameId) (p : player) (acts : List Action) :
    Except Panic (game × List Send) := do
  let (g0, sends0) ← newGame id p
  let (g, sends) ← g0.run acts
  .ok (g, sends0 ++ sends)

/-- The turn holder, when set, has the id of a player in the player map. -/
def turnHolderPresent (g : game) : Prop :=
  ∀ t, g.whoseTurn = some t → ∃ q ∈ g.playerIdToPlayer, q.id = t.id

/-- The frame `createNextFrame` builds for player `p` when the turn holder is `t`. -/
def game.frameFor (g : game) (t p : player) (msg : String) : Frame :=
  { GameId := g.id, IsGameStarted := g.playerIdToPlayer.length == 2,
    IsTurn := t.id == p.id, IsWhite := p.isWhite, Msg := msg,
    Board := boardView g.board }

/-! ## The registry (`manager.go`) -/

/-- The two maps of `gameManager`. A `*game` value of a map is represented by the
pointee. The mutex and the move queue carry no data the operations below read. -/
structure gameManager where
  gameIdToGame : List (GameId × game)
  playerIdToGame : List (PlayerId × game)

/-- Map lookup `v, ok := m[k]`. -/
def mapLookup {V : Type} (k : String) (m : List (String × V)) : Option V :=
  match m.find? (fun e => e.1 == k) with
  | some e => some e.2
  | none => none

/-- Builtin `delete(m, k)`. -/
def mapDelete {V : Type} (k : String) (m : List (String × V)) : List (String × V) :=
  m.filter (fun e => e.1 != k)

/-- Builtin `close(ch)` on the channel `nextFrame` of player `c`, where `closed`
lists the players whose channel is closed: closing a closed channel panics. -/
def closeChan (closed : List PlayerId) (c : PlayerId) : Except Panic (List PlayerId) :=
  if c ∈ closed then .error Panic.closeOfClosedChannel else .ok (c :: closed)

/-- The loop of `leaveGame` over the players of the game. -/
def leaveLoop : List player → gameManager → List PlayerId →
    Except Panic (gameManager × List PlayerId)
  | [], gm, closed => .ok (gm, closed)
  | player :: rest, gm, closed => do
    let closed ← closeChan closed player.id
    let gm := { gm with playerIdToGame := mapDelete player.id gm.playerIdToGame }
    leaveLoop rest gm closed

/-- Method `leaveGame` closes the game for both players. The state of the players'
channels is passed explicitly as the list `closed`. -/
def gameManager.leaveGame (gm : gameManager) (closed : List PlayerId) (playerId : PlayerId) :
    Except Panic (gameManager × List PlayerId) :=
  match mapLookup playerId gm.playerIdToGame with
  | none => .ok (gm, closed)
  | some game => do
    let (gm, closed) ← leaveLoop game.playerIdToPlayer gm closed
    .ok ({ gm with gameIdToGame := mapDelete game.id gm.gameIdToGame }, closed)

/-! ## The inbound dispatch (`player.go`) -/

/-- PlayerAction is an action performed by a player during a turn, as decoded
from the wire. -/
structure PlayerAction where
  StartGame : Bool
  JoinGame : GameId
  Move : Move
  deriving DecidableEq, Repr

/-- The call the read loop makes for a decoded action: on the registry
(`startNewGame`, `addSecondPlayer`) or a send on the move queue `incomingMoves`. -/
inductive Request where
  | startNewGame (p : player)
  | addSecondPlayer (p : player) (gameId : GameId)
  | incomingMove (m : Move)
  deriving DecidableEq, Repr

/-- The body of the loop of `gameReadLoop` after decoding, for the connection of
player `p`: the host is marked white before `startNewGame`, a move is stamped with
the id of `p`. -/
def player.gameReadLoopStep (p : player) (playerAction : PlayerAction) : Request :=
  if playerAction.StartGame then
    Request.startNewGame { p with isWhite := true }
  else if playerAction.JoinGame ≠ "" then
    Request.addSecondPlayer p playerAction.JoinGame
  else
    Request.incomingMove { playerAction.Move with PlayerId := p.id }

/-! ## The registry operations that send frames (`manager.go`) -/

/-- What an operation of the registry does to the mutex, to the two maps and to
the channels, in program order. -/
inductive Event where
  | lock
  | unlock
  | mapRead
  | mapWrite
  | send (s : Send)
  deriving DecidableEq, Repr

/-- The frames sent in a sequence of events. -/
def sendsOf : List Event → List Send
  | [] => []
  | Event.send s :: rest => s :: sendsOf rest
  | _ :: rest => sendsOf rest

/-- The sends of a game operation on the channels, where `closed` lists the
players whose channel is closed: a send on a closed channel panics. -/
def deliver (closed : List PlayerId) (sends : List Send) : Except Panic (List Event) :=
  if sends.any (fun s => decide (s.chan ∈ closed)) then
    .error Panic.sendOnClosedChannel
  else
    .ok (sends.map Event.send)

/-- Map assignment `m[k] = v`. -/
def mapInsert {V : Type} (k : String) (v : V) (m : List (String × V)) : List (String × V) :=
  if m.any (fun e => e.1 == k) then
    m.map (fun e => if e.1 = k then (k, v) else e)
  else
    m ++ [(k, v)]

/-- The effect on a map of an update of `game` through a pointer: every entry
that holds the game (the game with this id) holds the updated game. -/
def syncGame (game : game) (m : List (String × Gukesh.game)) : List (String × Gukesh.game) :=
  m.map (fun e => if e.2.id = game.id then (e.1, game) else e)

/-- Method `startNewGame` starts a new game and adds the first player to it; `id`
stands for the fresh id drawn in `newGame`. -/
def gameManager.startNewGame (gm : gameManager) (closed : List PlayerId) (id : GameId)
    (p : player) : Except Panic (gameManager × List Event) := do
  let (game, sends) ← newGame id p
  let sent ← deliver closed sends
  let gm := { gm with gameIdToGame := mapInsert game.id game gm.gameIdToGame }
  let gm := { gm with playerIdToGame := mapInsert p.id game gm.playerIdToGame }
  .ok (gm, [Event.lock] ++ sent ++ [Event.mapWrite, Event.mapWrite, Event.unlock])

/-- Method `addSecondPlayer` of the registry adds a second player to a game; an
unknown game id ends the process (`log.Fatal`). -/
def gameManager.addSecondPlayer (gm : gameManager) (closed : List PlayerId) (p : player)
    (gameId : GameId) : Except Panic (gameManager × List Event) :=
  match mapLookup gameId gm.gameIdToGame with
  | none => .error Panic.fatal
  | some game => do
    let (game, sends) ← game.addSecondPlayer p
    let sent ← deliver closed sends
    let gm : gameManager :=
      { gameIdToGame := syncGame game gm.gameIdToGame
        playerIdToGame := syncGame game gm.playerIdToGame }
    let gm := { gm with playerIdToGame := mapInsert p.id game gm.playerIdToGame }
    .ok (gm, [Event.lock, Event.mapRead] ++ sent ++ [Event.mapWrite, Event.unlock])

/-- One iteration of the loop of `runGames`, for the received `move`; a move of an
untracked player ends the process (`log.Fatal`). -/
def gameManager.runGamesStep (gm : gameManager) (closed : List PlayerId) (move : Move) :
    Except Panic (gameManager × List Event) :=
  match mapLookup move.PlayerId gm.playerIdToGame with
  | none => .error Panic.fatal
  | some game => do
    let (game, sends) ← game.handleMove move
    let sent ← deliver closed sends
    let gm : gameManager :=
      { gameIdToGame := syncGame game gm.gameIdToGame
        playerIdToGame := syncGame game gm.playerIdToGame }
    .ok (gm, [Event.mapRead] ++ sent)

/-- The operations connected players cause on the registry. -/
inductive RegistryOp where
  | startNewGame (id : GameId) (p : player)
  | addSecondPlayer (p : player) (gameId : GameId)
  | incomingMove (m : Move)
  | leaveGame (playerId : PlayerId)
  deriving DecidableEq, Repr

/-- One operation on the registry `gm` and the channel states `closed`. -/
def registryStep (gm : gameManager) (closed : List PlayerId) :
    RegistryOp → Except Panic (gameManager × List PlayerId)
  | .startNewGame id p => do
    let (gm, _) ← gm.startNewGame closed id p
    .ok (gm, closed)
  | .addSecondPlayer p gameId => do
    let (gm, _) ← gm.addSecondPlayer closed p gameId
    .ok (gm, closed)
  | .incomingMove m => do
    let (gm, _) ← gm.runGamesStep closed m
    .ok (gm, closed)
  | .leaveGame playerId => gm.leaveGame closed playerId

/-- A sequence of operations on the registry, in order; a panic ends the run. -/
def registryRun (gm : gameManager) (closed : List PlayerId) :
    List RegistryOp → Except Panic (gameManager × List PlayerId)
  | [] => .ok (gm, closed)
  | op :: rest => do
    let (gm, closed) ← registryStep gm closed op
    registryRun gm closed rest

/-- The registry `newGameManager` returns: both maps empty. -/
def newGameManager : gameManager := { gameIdToGame := [], playerIdToGame := [] }

/-- Every access of a map in the sequence of events happens while the mutex is
held; `held` tells whether it is held at the start. -/
def mapsUnderLock : Bool → List Event → Bool
  | _, [] => true
  | _, Event.lock :: rest => mapsUnderLock true rest
  | _, Event.unlock :: rest => mapsUnderLock false rest
  | held, Event.mapRead :: rest => held && mapsUnderLock held rest
  | held, Event.mapWrite :: rest => held && mapsUnderLock held rest
  | held, Event.send _ :: rest => mapsUnderLock held rest

/-- No frame is sent in the sequence of events while the mutex is held. -/
def noSendUnderLock : Bool → List Event → Bool
  | _, [] => true
  | _, Event.lock :: rest => noSendUnderLock true rest
  | _, Event.unlock :: rest => noSendUnderLock false rest
  | held, Event.send _ :: rest => !held && noSendUnderLock held rest
  | held, _ :: rest => noSendUnderLock held rest

/-! ## The standard starting position, in the words of the specification -/

/-- The back rank of one colour, in the order rook, knight, bishop, queen, king,
bishop, knight, rook. -/
def backRank (white : Bool) (c : Fin 8) : piece :=
  match c.val with
  | 0 => newRook white
  | 1 => newKnight white
  | 2 => newBishop white
  | 3 => newQueen white
  | 4 => newKing white
  | 5 => newBishop white
  | 6 => newKnight white
  | _ => newRook white

/-- The standard starting position: row 0 is the black back rank, row 1 eight
black pawns, row 6 eight white pawns, row 7 the white back rank, and rows 2 to 5
are empty. -/
def standardPosition : Board := fun r c =>
  if r = 0 then some (backRank false c)
  else if r = 1 then some (newPawn false)
  else if r = 6 then some (newPawn true)
  else if r = 7 then some (backRank true c)
  else none

/-- The view of one back rank. -/
def backRankView (white : Bool) : List PieceView :=
  [⟨white, "rook"⟩, ⟨white, "knight"⟩, ⟨white, "bishop"⟩, ⟨white, "queen"⟩,
   ⟨white, "king"⟩, ⟨white, "bishop"⟩, ⟨white, "knight"⟩, ⟨white, "rook"⟩]

/-- The board view of the standard starting position, row-major; the empty cell
is the zero `PieceView`. -/
def standardView : List (List PieceView) :=
  [backRankView false,
   List.replicate 8 ⟨false, "pawn"⟩,
   List.replicate 8 ⟨false, ""⟩,
   List.replicate 8 ⟨false, ""⟩,
   List.replicate 8 ⟨false, ""⟩,
   List.replicate 8 ⟨false, ""⟩,
   List.replicate 8 ⟨true, "pawn"⟩,
   backRankView true]

/-- A piece as its constructor (`newPawn`, `newKing`, ...) builds it: the name is
the name of its kind. -/
def piece.constructed : piece → Bool
  | .pawn _ n => n == "pawn"
  | .king _ n => n == "king"
  | .queen _ n => n == "queen"
  | .knight _ n => n == "knight"
  | .bishop _ n => n == "bishop"
  | .rook _ n => n == "rook"

/-- Every piece on the board is as its constructor builds it. -/
def boardConstructed (board : Board) : Prop :=
  ∀ (r c : Fin 8) (pc : piece), board r c = some pc → pc.constructed = true

/-! ## Example states -/

/-- A white host. -/
def hostA : player := { id := "A", isWhite := true }

/-- A joiner, who plays black. -/
def joinerB : player := { id := "B", isWhite := false }

/-- A third player. -/
def thirdC : player := { id := "C", isWhite := false }

/-- The game after `hostA` has started it and `joinerB` has joined. -/
def startedGame : game :=
  { id := "G", board := newBoard, playerIdToPlayer := [hostA, joinerB], whoseTurn := some hostA }

/-- The game `G1` of the registry example: host `hostA`, joined by `joinerB`. -/
def gameOne : game :=
  { id := "G1", board := newBoard, playerIdToPlayer := [hostA, joinerB], whoseTurn := some hostA }

/-- The game `G2` of the registry example: host `hostA` again, joined by `thirdC`. -/
def gameTwo : game :=
  { id := "G2", board := newBoard, playerIdToPlayer := [hostA, thirdC], whoseTurn := some hostA }

/-- The registry after `hostA` has started `G1` and then `G2`, `joinerB` has joined
`G1` and `thirdC` has joined `G2`: the entry of `hostA` is the one written last. -/
def twoSessions : gameManager :=
  { gameIdToGame := [("G1", gameOne), ("G2", gameTwo)]
    playerIdToGame := [("A", gameTwo), ("B", gameOne), ("C", gameTwo)] }

/-- The registry after `hostA` has started the game "G" and `joinerB` has joined. -/
def startedRegistry : gameManager :=
  { gameIdToGame := [("G", startedGame)]
    playerIdToGame := [("A", startedGame), ("B", startedGame)] }

/-! ## Auxiliary facts -/

theorem findPlayers_append (ps : List player) (p : player) (pid : PlayerId) :
    findPlayers (ps ++ [p]) pid = findStep pid (findPlayers ps pid) p := by
  simp [findPlayers, List.foldl_append]

theorem findPlayers_fst_some (ps : List player) (pid : PlayerId) (pl : player)
    (h : (findPlayers ps pid).1 = some pl) : pl ∈ ps ∧ pl.id = pid := by
  induction ps using List.reverseRecOn with
  | nil => simp [findPlayers] at h
  | append_singleton l a ih =>
    rw [findPlayers_append] at h
    unfold findStep at h
    split at h
    · simp at h; subst h; simp [*]
    · have := ih h; simp [this]

theorem findPlayers_fst_of_mem (ps : List player) (pid : PlayerId)
    (h : ∃ p ∈ ps, p.id = pid) :
    ∃ pl, (findPlayers ps pid).1 = some pl ∧ pl ∈ ps ∧ pl.id = pid := by
  have key : ∃ pl, (findPlayers ps pid).1 = some pl := by
    induction ps using List.reverseRecOn with
    | nil => simp at h
    | append_singleton l a ih =>
      rw [findPlayers_append]
      unfold findStep
      split
      · exact ⟨a, rfl⟩
      · rename_i hne
        obtain ⟨p, hp, hpid⟩ := h
        simp at hp
        rcases hp with hp | hp
        · exact ih ⟨p, hp, hpid⟩
        · subst hp; exact absurd hpid hne
  obtain ⟨pl, hpl⟩ := key
  exact ⟨pl, hpl, findPlayers_fst_some ps pid pl hpl⟩

theorem findPlayers_snd_some (ps : List player) (pid : PlayerId) (o : player)
    (h : (findPlayers ps pid).2 = some o) : o ∈ ps ∧ o.id ≠ pid := by
  induction ps using List.reverseRecOn with
  | nil => simp [findPlayers] at h
  | append_singleton l a ih =>
    rw [findPlayers_append] at h
    unfold findStep at h
    split at h
    · have := ih h; simp [this]
    · simp at h; subst h; simp [*]

theorem findPlayers_snd_of_mem (ps : List player) (pid : PlayerId)
    (h : ∃ q ∈ ps, q.id ≠ pid) :
    ∃ o, (findPlayers ps pid).2 = some o ∧ o ∈ ps ∧ o.id ≠ pid := by
  have key : ∃ o, (findPlayers ps pid).2 = some o := by
    induction ps using List.reverseRecOn with
    | nil => simp at h
    | append_singleton l a ih =>
      rw [findPlayers_append]
      unfold findStep
      split
      · rename_i heq
        obtain ⟨q, hq, hqid⟩ := h
        simp at hq
        rcases hq with hq | hq
        · exact ih ⟨q, hq, hqid⟩
        · subst hq; exact absurd heq hqid
      · exact ⟨a, rfl⟩
  obtain ⟨o, ho⟩ := key
  exact ⟨o, ho, findPlayers_snd_some ps pid o ho⟩

theorem boardIndex_coe (r : Fin 8) : boardIndex ((r : Nat) : Int) = .ok r := by
  unfold boardIndex
  have h : (0 : Int) ≤ ((r : Nat) : Int) ∧ ((r : Nat) : Int) < 8 := by omega
  simp [h]

theorem createNextFrame_frameFor (g : game) (t p : player) (msg : String)
    (h : g.whoseTurn = some t) : g.createNextFrame p msg = .ok (g.frameFor t p msg) := by
  simp [game.createNextFrame, h, game.frameFor]

theorem redrawLoop_ok (g : game) (t : player) (h : g.whoseTurn = some t) (ps : List player) :
    g.redrawLoop ps = .ok (ps.map (fun p => { chan := p.id, frame := g.frameFor t p "" })) := by
  induction ps with
  | nil => rfl
  | cons p rest ih =>
    simp only [game.redrawLoop, createNextFrame_frameFor g t p "" h, ih]
    rfl

theorem redrawLoop_none (g : game) (h : g.whoseTurn = none) (p : player) (ps : List player) :
    g.redrawLoop (p :: ps) = .error Panic.nilPointerDereference := by
  simp only [game.redrawLoop, game.createNextFrame, h]
  rfl

theorem piece_move_eq (pc : piece) (m : Move) (board : Board) :
    pc.move m board = moveBody pc m board := by
  cases pc <;> rfl

theorem checkBounds_in (m : Move) (tr tc : Fin 8)
    (hr : m.To.Row = ((tr : Nat) : Int)) (hc : m.To.Col = ((tc : Nat) : Int)) :
    m.checkBounds = none := by
  unfold Move.checkBounds
  have : ¬ (m.To.Row < 0 ∨ m.To.Row > 7 ∨ m.To.Col < 0 ∨ m.To.Col > 7) := by omega
  simp [this]

theorem checkBounds_out (m : Move)
    (h : m.To.Row < 0 ∨ 7 < m.To.Row ∨ m.To.Col < 0 ∨ 7 < m.To.Col) :
    m.checkBounds = some _invalidMoveMsg := by
  unfold Move.checkBounds
  have : (m.To.Row < 0 ∨ m.To.Row > 7 ∨ m.To.Col < 0 ∨ m.To.Col > 7) := by omega
  simp [this]

theorem move_in_bounds (pc : piece) (m : Move) (board : Board) (fr fc tr tc : Fin 8)
    (hfr : m.From.Row = ((fr : Nat) : Int)) (hfc : m.From.Col = ((fc : Nat) : Int))
    (htr : m.To.Row = ((tr : Nat) : Int)) (htc : m.To.Col = ((tc : Nat) : Int)) :
    pc.move m board = .ok (setCell (setCell board fr fc none) tr tc (some pc), none) := by
  rw [piece_move_eq]
  simp only [moveBody, checkBounds_in m tr tc htr htc, hfr, hfc, htr, htc, boardIndex_coe]
  rfl

theorem move_out_of_bounds (pc : piece) (m : Move) (board : Board)
    (h : m.To.Row < 0 ∨ 7 < m.To.Row ∨ m.To.Col < 0 ∨ 7 < m.To.Col) :
    pc.move m board = .ok (board, some _invalidMoveMsg) := by
  rw [piece_move_eq]
  simp only [moveBody, checkBounds_out m h]

/-- The last branch of `handleMove`. -/
theorem handleMove_applied (g : game) (m : Move) (t pl o : player) (r c : Fin 8) (pc : piece)
    (board1 : Board) (err : Option String)
    (hturn : g.whoseTurn = some t)
    (hpl : (findPlayers g.playerIdToPlayer m.PlayerId).1 = some pl)
    (ho : (findPlayers g.playerIdToPlayer m.PlayerId).2 = some o)
    (heq : t.id = pl.id)
    (hr : m.From.Row = ((r : Nat) : Int)) (hc : m.From.Col = ((c : Nat) : Int))
    (hcell : g.board r c = some pc)
    (hmove : pc.move m g.board = .ok (board1, err)) :
    g.handleMove m = .ok
      ({ g with board := board1, whoseTurn := some o },
       g.playerIdToPlayer.map (fun p =>
        { chan := p.id,
          frame := game.frameFor { g with board := board1, whoseTurn := some o } o p "" })) := by
  simp only [game.handleMove, hturn, hpl, ho, hr, hc, boardIndex_coe]
  simp only [heq, ne_eq, not_true_eq_false, ↓reduceIte]
  simp only [bind, Except.bind, hcell, hmove, game.redrawAllScreens]
  rw [redrawLoop_ok _ o rfl]

/-- The second branch of `handleMove`. -/
theorem handleMove_empty (g : game) (m : Move) (t pl : player) (r c : Fin 8)
    (hturn : g.whoseTurn = some t)
    (hpl : (findPlayers g.playerIdToPlayer m.PlayerId).1 = some pl)
    (heq : t.id = pl.id)
    (hr : m.From.Row = ((r : Nat) : Int)) (hc : m.From.Col = ((c : Nat) : Int))
    (hcell : g.board r c = none) :
    g.handleMove m = .ok (g, [{ chan := pl.id, frame := g.frameFor t pl _invalidMoveMsg }]) := by
  simp only [game.handleMove, hturn, hpl, hr, hc, boardIndex_coe]
  simp only [heq, ne_eq, not_true_eq_false, ↓reduceIte]
  simp only [bind, Except.bind, hcell, game.drawScreen, createNextFrame_frameFor g t pl _ hturn]

/-- The first branch of `handleMove`. -/
theorem handleMove_rejected (g : game) (m : Move) (t pl : player)
    (hturn : g.whoseTurn = some t)
    (hpl : (findPlayers g.playerIdToPlayer m.PlayerId).1 = some pl)
    (hne : t.id ≠ pl.id) :
    g.handleMove m = .ok (g, [{ chan := pl.id, frame := g.frameFor t pl _notYourTurnMsg }]) := by
  simp only [game.handleMove, hturn, hpl]
  simp only [hne, ne_eq, not_false_eq_true, ↓reduceIte]
  simp only [bind, Except.bind, game.drawScreen, createNextFrame_frameFor g t pl _ hturn]

/-! ## Moves out of turn -/

/-- C1: when the turn holder is set and the move is submitted by a player of the
game who is not the turn holder, `handleMove` returns with the board and the turn
holder unchanged and sends exactly one frame; that frame goes to the submitter
and carries "not your turn"; no frame goes to any other player. -/
theorem handleMove_not_your_turn (g : game) (m : Move) (t : player)
    (hturn : g.whoseTurn = some t)
    (hmem : ∃ p ∈ g.playerIdToPlayer, p.id = m.PlayerId)
    (hne : t.id ≠ m.PlayerId) :
    ∃ g1 sends frame, g.handleMove m = .ok (g1, sends) ∧
      g1.board = g.board ∧ g1.whoseTurn = g.whoseTurn ∧
      sends = [{ chan := m.PlayerId, frame := frame }] ∧
      frame.Msg = _notYourTurnMsg ∧
      ∀ q : player, q.id ≠ m.PlayerId → ∀ s ∈ sends, s.chan ≠ q.id := by
  obtain ⟨pl, hpl, -, hid⟩ := findPlayers_fst_of_mem _ _ hmem
  have hne2 : t.id ≠ pl.id := by rw [hid]; exact hne
  refine ⟨g, _, g.frameFor t pl _notYourTurnMsg,
    handleMove_rejected g m t pl hturn hpl hne2, rfl, rfl, by rw [hid], rfl, ?_⟩
  intro q hq s hs
  simp at hs
  subst hs
  rw [hid]
  exact fun h => hq h.symm

/-- Witness of C1: the joiner moves while the host holds the turn. -/
theorem handleMove_not_your_turn_witness :
    ∃ g1 sends frame, startedGame.handleMove ⟨"B", ⟨1, 0⟩, ⟨2, 0⟩⟩ = .ok (g1, sends) ∧
      g1.board = startedGame.board ∧ g1.whoseTurn = startedGame.whoseTurn ∧
      sends = [{ chan := "B", frame := frame }] ∧
      frame.Msg = _notYourTurnMsg ∧
      ∀ q : player, q.id ≠ "B" → ∀ s ∈ sends, s.chan ≠ q.id :=
  handleMove_not_your_turn startedGame ⟨"B", ⟨1, 0⟩, ⟨2, 0⟩⟩ hostA rfl
    ⟨joinerB, by decide, rfl⟩ (by decide)

/-- C2: a move submitted by the turn holder whose source is an in-bounds empty
cell leaves the board and the turn holder unchanged and sends exactly one frame,
to the mover, carrying "invalid move". -/
theorem handleMove_empty_source (g : game) (m : Move) (t : player) (r c : Fin 8)
    (hturn : g.whoseTurn = some t) (hmover : t.id = m.PlayerId)
    (hmem : ∃ p ∈ g.playerIdToPlayer, p.id = m.PlayerId)
    (hr : m.From.Row = ((r : Nat) : Int)) (hc : m.From.Col = ((c : Nat) : Int))
    (hcell : g.board r c = none) :
    ∃ g1 sends frame, g.handleMove m = .ok (g1, sends) ∧
      g1.board = g.board ∧ g1.whoseTurn = g.whoseTurn ∧
      sends = [{ chan := m.PlayerId, frame := frame }] ∧
      frame.Msg = _invalidMoveMsg := by
  obtain ⟨pl, hpl, -, hid⟩ := findPlayers_fst_of_mem _ _ hmem
  have heq : t.id = pl.id := by rw [hid]; exact hmover
  exact ⟨g, _, g.frameFor t pl _invalidMoveMsg,
    handleMove_empty g m t pl r c hturn hpl heq hr hc hcell, rfl, rfl, by rw [hid], rfl⟩

/-- Witness of C2: the host moves from the empty cell (3,3) to (3,4) on the initial board. -/
theorem handleMove_empty_source_witness :
    ∃ g1 sends frame, startedGame.handleMove ⟨"A", ⟨3, 3⟩, ⟨3, 4⟩⟩ = .ok (g1, sends) ∧
      g1.board = newBoard ∧ g1.whoseTurn = some hostA ∧
      sends = [{ chan := "A", frame := frame }] ∧
      frame.Msg = _invalidMoveMsg :=
  handleMove_empty_source startedGame ⟨"A", ⟨3, 3⟩, ⟨3, 4⟩⟩ hostA 3 3 rfl rfl
    ⟨hostA, by decide, rfl⟩ rfl rfl (by decide)

/-- C5, the code at the failing input: on the initial board the white host, whose
turn it is, moves the pawn at (6,0) to the out-of-bounds destination (8,0). The
error of `move` is dropped: the board is unchanged, but the turn passes to the
joiner and both players receive a frame with the empty message; the mover gets no
"invalid move". -/
theorem handleMove_out_of_bounds_destination_eval :
    ∃ g1 frameA frameB,
      startedGame.handleMove ⟨"A", ⟨6, 0⟩, ⟨8, 0⟩⟩ =
        .ok (g1, [{ chan := "A", frame := frameA }, { chan := "B", frame := frameB }]) ∧
      g1.board = startedGame.board ∧
      g1.whoseTurn = some joinerB ∧
      frameA.Msg = "" ∧ frameB.Msg = "" ∧
      frameA.Msg ≠ _invalidMoveMsg :=
  ⟨_, _, _,
    handleMove_applied startedGame ⟨"A", ⟨6, 0⟩, ⟨8, 0⟩⟩ hostA hostA joinerB 6 0
      (newPawn true) _ _ rfl rfl rfl rfl rfl rfl (by decide)
      (move_out_of_bounds (newPawn true) ⟨"A", ⟨6, 0⟩, ⟨8, 0⟩⟩ startedGame.board
        (Or.inr (Or.inl (by decide)))),
    rfl, rfl, rfl, rfl, by decide⟩

theorem boardIndex_ok (i : Int) (r : Fin 8) (h : boardIndex i = .ok r) :
    i = ((r : Nat) : Int) := by
  unfold boardIndex at h
  split at h
  · rename_i hb
    cases h
    simp only [Int.toNat_of_nonneg hb.1]
  · cases h

theorem handleMove_board_of_out_of_bounds (g g1 : game) (m : Move) (sends : List Send)
    (h : m.To.Row < 0 ∨ 7 < m.To.Row ∨ m.To.Col < 0 ∨ 7 < m.To.Col)
    (hok : g.handleMove m = .ok (g1, sends)) : g1.board = g.board := by
  cases hturn : g.whoseTurn with
  | none => simp [game.handleMove, hturn] at hok
  | some t =>
    cases hpl : (findPlayers g.playerIdToPlayer m.PlayerId).1 with
    | none => simp [game.handleMove, hturn, hpl] at hok
    | some pl =>
      by_cases hne : t.id = pl.id
      · cases hr : boardIndex m.From.Row with
        | error e => simp [game.handleMove, hturn, hpl, hne, hr, bind, Except.bind] at hok
        | ok r =>
          cases hc : boardIndex m.From.Col with
          | error e => simp [game.handleMove, hturn, hpl, hne, hr, hc, bind, Except.bind] at hok
          | ok c =>
            have hr1 := boardIndex_ok _ _ hr
            have hc1 := boardIndex_ok _ _ hc
            cases hcell : g.board r c with
            | none =>
              rw [handleMove_empty g m t pl r c hturn hpl hne hr1 hc1 hcell] at hok
              cases hok; rfl
            | some pc =>
              cases ho : (findPlayers g.playerIdToPlayer m.PlayerId).2 with
              | none =>
                simp [game.handleMove, hturn, hpl, hne, hr, hc, bind, Except.bind, hcell,
                  move_out_of_bounds pc m g.board h, ho] at hok
                split at hok
                · cases hok
                · cases hok; rfl
              | some o =>
                rw [handleMove_applied g m t pl o r c pc _ _ hturn hpl ho hne hr1 hc1 hcell
                  (move_out_of_bounds pc m g.board h)] at hok
                cases hok; rfl
      · rw [handleMove_rejected g m t pl hturn hpl hne] at hok
        cases hok; rfl

/-- C6: for every piece (of any of the six kinds), every board and every move whose
destination row or column is outside [0,7], `move` returns the invalid-move error
and leaves the board as it was; whenever the enclosing `handleMove` returns, its
board equals the board before, cell for cell; and `handleMove` does return when the
mover is the turn holder, another player is present and the source is an in-bounds
cell holding the piece. -/
theorem move_out_of_bounds_keeps_board (pc : piece) (m : Move) (board : Board)
    (h : m.To.Row < 0 ∨ 7 < m.To.Row ∨ m.To.Col < 0 ∨ 7 < m.To.Col) :
    pc.move m board = .ok (board, some _invalidMoveMsg) ∧
    (∀ (g g1 : game) (sends : List Send),
      g.handleMove m = .ok (g1, sends) → ∀ i j : Fin 8, g1.board i j = g.board i j) ∧
    (∀ (g : game) (t : player) (r c : Fin 8),
      g.whoseTurn = some t → t.id = m.PlayerId →
      (∃ p ∈ g.playerIdToPlayer, p.id = m.PlayerId) →
      (∃ q ∈ g.playerIdToPlayer, q.id ≠ m.PlayerId) →
      m.From.Row = ((r : Nat) : Int) → m.From.Col = ((c : Nat) : Int) →
      g.board r c = some pc →
      ∃ g1 sends, g.handleMove m = .ok (g1, sends) ∧ g1.board = g.board) := by
  refine ⟨move_out_of_bounds pc m board h, ?_, ?_⟩
  · intro g g1 sends hok i j
    rw [handleMove_board_of_out_of_bounds g g1 m sends h hok]
  · intro g t r c hturn hmover hmem hother hr hc hcell
    obtain ⟨pl, hpl, -, hid⟩ := findPlayers_fst_of_mem _ _ hmem
    obtain ⟨o, ho, -, -⟩ := findPlayers_snd_of_mem _ _ hother
    have heq : t.id = pl.id := by rw [hid]; exact hmover
    exact ⟨_, _, handleMove_applied g m t pl o r c pc _ _ hturn hpl ho heq hr hc hcell
      (move_out_of_bounds pc m g.board h), rfl⟩

/-- Witness of C6: the black knight at (0,1) is sent to (-2,2). -/
theorem move_out_of_bounds_keeps_board_witness :
    (newKnight false).move ⟨"B", ⟨0, 1⟩, ⟨-2, 2⟩⟩ newBoard =
      .ok (newBoard, some _invalidMoveMsg) ∧
    (∀ (g g1 : game) (sends : List Send),
      g.handleMove ⟨"B", ⟨0, 1⟩, ⟨-2, 2⟩⟩ = .ok (g1, sends) →
      ∀ i j : Fin 8, g1.board i j = g.board i j) ∧
    (∀ (g : game) (t : player) (r c : Fin 8),
      g.whoseTurn = some t → t.id = "B" →
      (∃ p ∈ g.playerIdToPlayer, p.id = "B") →
      (∃ q ∈ g.playerIdToPlayer, q.id ≠ "B") →
      (0 : Int) = ((r : Nat) : Int) → (1 : Int) = ((c : Nat) : Int) →
      g.board r c = some (newKnight false) →
      ∃ g1 sends, g.handleMove ⟨"B", ⟨0, 1⟩, ⟨-2, 2⟩⟩ = .ok (g1, sends) ∧
        g1.board = g.board) :=
  move_out_of_bounds_keeps_board (newKnight false) ⟨"B", ⟨0, 1⟩, ⟨-2, 2⟩⟩ newBoard
    (Or.inl (by decide))

theorem handleMoves_rejected (g : game) (t pl : player) (hturn : g.whoseTurn = some t)
    (hne : t.id ≠ pl.id) (ms : List Move)
    (hms : ∀ x ∈ ms, (findPlayers g.playerIdToPlayer x.PlayerId).1 = some pl) :
    g.handleMoves ms = .ok (g, ms.map (fun _ =>
      { chan := pl.id, frame := g.frameFor t pl _notYourTurnMsg })) := by
  induction ms with
  | nil => rfl
  | cons x rest ih =>
    have hx := hms x (List.mem_cons_self _ _)
    have hrest := ih (fun y hy => hms y (List.mem_cons_of_mem _ hy))
    simp only [game.handleMoves, handleMove_rejected g x t pl hturn hx hne, bind, Except.bind,
      hrest, List.map_cons, List.singleton_append]

/-- The part of strict alternation that holds: in a game with exactly the two
players `a` and `b` (distinct ids), after `handleMove` has applied a move of the
turn holder P the turn holder is the opponent; every sequence of further moves
submitted by P alone is rejected move by move with "not your turn", sent to P, and
leaves the game unchanged; and whenever a later sequence of moves ends with P as
turn holder, it contains a move not submitted by P (which need not have been
applied). -/
theorem handleMove_strict_alternation (g : game) (m : Move) (t a b : player)
    (fr fc tr tc : Fin 8) (pc : piece)
    (hplayers : g.playerIdToPlayer = [a, b]) (hab : a.id ≠ b.id)
    (hturn : g.whoseTurn = some t) (hmover : t.id = m.PlayerId)
    (hin : m.PlayerId = a.id ∨ m.PlayerId = b.id)
    (hfr : m.From.Row = ((fr : Nat) : Int)) (hfc : m.From.Col = ((fc : Nat) : Int))
    (htr : m.To.Row = ((tr : Nat) : Int)) (htc : m.To.Col = ((tc : Nat) : Int))
    (hcell : g.board fr fc = some pc) :
    ∃ g1 sends1 opp, g.handleMove m = .ok (g1, sends1) ∧
      g1.whoseTurn = some opp ∧ opp.id ≠ m.PlayerId ∧
      (∀ ms : List Move, (∀ x ∈ ms, x.PlayerId = m.PlayerId) →
        ∃ sends, g1.handleMoves ms = .ok (g1, sends) ∧
          sends.length = ms.length ∧
          ∀ s ∈ sends, s.chan = m.PlayerId ∧ s.frame.Msg = _notYourTurnMsg) ∧
      (∀ (ms : List Move) (g2 : game) (sends : List Send) (t2 : player),
        g1.handleMoves ms = .ok (g2, sends) → g2.whoseTurn = some t2 →
        t2.id = m.PlayerId → ∃ x ∈ ms, x.PlayerId ≠ m.PlayerId) := by
  have hmem : ∃ p ∈ g.playerIdToPlayer, p.id = m.PlayerId := by
    rw [hplayers]
    rcases hin with h | h
    · exact ⟨a, by simp, h.symm⟩
    · exact ⟨b, by simp, h.symm⟩
  have hother : ∃ q ∈ g.playerIdToPlayer, q.id ≠ m.PlayerId := by
    rw [hplayers]
    rcases hin with h | h
    · exact ⟨b, by simp, by rw [h]; exact fun e => hab e.symm⟩
    · exact ⟨a, by simp, by rw [h]; exact hab⟩
  obtain ⟨pl, hpl, -, hid⟩ := findPlayers_fst_of_mem _ _ hmem
  obtain ⟨o, ho, -, hoid⟩ := findPlayers_snd_of_mem _ _ hother
  have heq : t.id = pl.id := by rw [hid]; exact hmover
  have happ := handleMove_applied g m t pl o fr fc pc _ none hturn hpl ho heq hfr hfc hcell
    (move_in_bounds pc m g.board fr fc tr tc hfr hfc htr htc)
  have hrej : ∀ ms : List Move, (∀ x ∈ ms, x.PlayerId = m.PlayerId) →
      game.handleMoves
        { g with board := setCell (setCell g.board fr fc none) tr tc (some pc),
                 whoseTurn := some o } ms =
      .ok ({ g with board := setCell (setCell g.board fr fc none) tr tc (some pc),
                    whoseTurn := some o },
        ms.map (fun _ =>
          { chan := pl.id,
            frame := game.frameFor
              { g with board := setCell (setCell g.board fr fc none) tr tc (some pc),
                       whoseTurn := some o } o pl _notYourTurnMsg })) := by
    intro ms hms
    apply handleMoves_rejected _ o pl rfl (by rw [hid]; exact hoid)
    intro x hx
    rw [hms x hx]
    exact hpl
  refine ⟨_, _, o, happ, rfl, hoid, ?_, ?_⟩
  · intro ms hms
    refine ⟨_, hrej ms hms, by simp, ?_⟩
    intro s hs
    simp only [List.mem_map] at hs
    obtain ⟨_, -, rfl⟩ := hs
    exact ⟨hid, rfl⟩
  · intro ms g2 sends t2 hrun ht2 hid2
    by_contra hall
    push_neg at hall
    rw [hrej ms hall] at hrun
    cases hrun
    cases ht2
    exact hoid hid2

/-- C7, the code at the failing input: in the two-player game on the initial board
the host A moves (6,0) to (4,0) and the turn passes to the joiner B. B then submits
(1,0) to (8,0): `move` refuses the destination and the board stays as it was, but
`handleMove` drops the error and passes the turn back to A. A moves again, (6,1) to
(4,1); the move is applied and both frames carry the empty message, not "not your
turn". So A has moved twice with no move applied for B in between. -/
theorem out_of_bounds_move_returns_turn :
    ∃ g1 sends1 g2 sends2 g3 sends3,
      startedGame.handleMove ⟨"A", ⟨6, 0⟩, ⟨4, 0⟩⟩ = .ok (g1, sends1) ∧
      g1.board 4 0 = some (newPawn true) ∧ g1.whoseTurn = some joinerB ∧
      g1.handleMove ⟨"B", ⟨1, 0⟩, ⟨8, 0⟩⟩ = .ok (g2, sends2) ∧
      (∀ i j : Fin 8, g2.board i j = g1.board i j) ∧ g2.whoseTurn = some hostA ∧
      g2.handleMove ⟨"A", ⟨6, 1⟩, ⟨4, 1⟩⟩ = .ok (g3, sends3) ∧
      g3.board 6 1 = none ∧ g3.board 4 1 = some (newPawn true) ∧
      g3.whoseTurn = some joinerB ∧
      sends3.map (fun s => (s.chan, s.frame.Msg)) = [("A", ""), ("B", "")] ∧
      startedGame.handleMoves
        [⟨"A", ⟨6, 0⟩, ⟨4, 0⟩⟩, ⟨"B", ⟨1, 0⟩, ⟨8, 0⟩⟩, ⟨"A", ⟨6, 1⟩, ⟨4, 1⟩⟩] =
        .ok (g3, sends1 ++ (sends2 ++ (sends3 ++ []))) :=
  ⟨_, _, _, _, _, _, rfl, by decide, rfl, rfl, fun _ _ => rfl, rfl, rfl, by decide, by decide,
    rfl, rfl, rfl⟩

theorem mapLookup_nil {V : Type} (k : String) : mapLookup k ([] : List (String × V)) = none := rfl

theorem mapLookup_cons {V : Type} (k : String) (e : String × V) (m : List (String × V)) :
    mapLookup k (e :: m) = if e.1 = k then some e.2 else mapLookup k m := by
  unfold mapLookup
  by_cases h : e.1 = k
  · simp [List.find?, h]
  · have hb : (e.1 == k) = false := by simp [h]
    simp [List.find?, hb, h]

theorem mapLookup_filter {V : Type} (keep : String → Bool) (k : String)
    (m : List (String × V)) :
    mapLookup k (m.filter (fun e => keep e.1)) = if keep k then mapLookup k m else none := by
  induction m with
  | nil => simp [mapLookup_nil]
  | cons e rest ih =>
    by_cases hk : keep e.1 = true
    · have hf : (e :: rest).filter (fun e => keep e.1) = e :: rest.filter (fun e => keep e.1) := by
        simp [List.filter_cons, hk]
      rw [hf, mapLookup_cons, mapLookup_cons, ih]
      by_cases he : e.1 = k
      · subst he; simp [hk]
      · simp [he]
    · have hf : (e :: rest).filter (fun e => keep e.1) = rest.filter (fun e => keep e.1) := by
        simp [List.filter_cons, hk]
      rw [hf, mapLookup_cons, ih]
      by_cases he : e.1 = k
      · subst he; simp [hk]
      · simp [he]

theorem mapLookup_delete {V : Type} (d k : String) (m : List (String × V)) :
    mapLookup k (mapDelete d m) = if k = d then none else mapLookup k m := by
  unfold mapDelete
  rw [mapLookup_filter (fun x => x != d) k m]
  by_cases h : k = d
  · simp [h]
  · simp [h]

theorem leaveLoop_ok (ps : List player) (gm : gameManager) (closed : List PlayerId)
    (hnodup : (ps.map player.id).Nodup) (hopen : ∀ q ∈ ps, q.id ∉ closed) :
    leaveLoop ps gm closed = .ok
      ({ gm with playerIdToGame :=
          gm.playerIdToGame.filter (fun e => !(ps.any (fun q => q.id == e.1))) },
       (ps.map player.id).reverse ++ closed) := by
  induction ps generalizing gm closed with
  | nil => simp [leaveLoop]
  | cons p rest ih =>
    have hp : p.id ∉ closed := hopen p (List.mem_cons_self _ _)
    simp only [List.map_cons, List.nodup_cons] at hnodup
    have hrest : ∀ q ∈ rest, q.id ∉ p.id :: closed := by
      intro q hq hmem
      rcases List.mem_cons.mp hmem with h | h
      · exact hnodup.1 (by rw [← h]; exact List.mem_map_of_mem _ hq)
      · exact hopen q (List.mem_cons_of_mem _ hq) h
    simp only [leaveLoop, closeChan, hp, if_false, bind, Except.bind]
    rw [ih _ _ hnodup.2 hrest]
    simp only [mapDelete, List.filter_filter, List.map_cons, List.reverse_cons,
      List.append_assoc, List.singleton_append, List.any_cons]
    congr 3
    apply List.filter_congr
    intro e _
    by_cases h : p.id = e.1
    · simp [h]
    · have h2 : ¬ e.1 = p.id := fun x => h x.symm
      have hb1 : (p.id == e.1) = false := by simp [h]
      have hb2 : (e.1 != p.id) = true := by simp [h2]
      simp [hb1, hb2]


theorem any_id_false (ps : List player) (k : PlayerId) (h : ∀ q ∈ ps, q.id ≠ k) :
    (ps.any (fun q => q.id == k)) = false := by
  rw [List.any_eq_false]
  intro q hq
  simp [h q hq]

theorem any_id_true (ps : List player) (q : player) (h : q ∈ ps) :
    (ps.any (fun x => x.id == q.id)) = true := by
  rw [List.any_eq_true]
  exact ⟨q, h, by simp⟩

/-! ## Leaving a game -/

/-- C8, amended: when the player token maps to a game `G` whose players have
distinct ids and none of whose players has its channel closed already,
`leaveGame` returns; afterwards the id of `G` is not a key of the game map, no
player of `G` is a key of the player map, and the channel of every player of `G`
is closed; the entries of the game map under other ids are unchanged, and for
every token that is not a player of `G` the entry of the player map and the state
of the channel are unchanged. -/
theorem leaveGame_tears_down (gm : gameManager) (closed : List PlayerId) (playerId : PlayerId)
    (G : game)
    (hmaps : mapLookup playerId gm.playerIdToGame = some G)
    (hnodup : (G.playerIdToPlayer.map player.id).Nodup)
    (hopen : ∀ q ∈ G.playerIdToPlayer, q.id ∉ closed) :
    ∃ gm1 closed1, gm.leaveGame closed playerId = .ok (gm1, closed1) ∧
      mapLookup G.id gm1.gameIdToGame = none ∧
      (∀ q ∈ G.playerIdToPlayer,
        mapLookup q.id gm1.playerIdToGame = none ∧ q.id ∈ closed1) ∧
      (∀ k : GameId, k ≠ G.id →
        mapLookup k gm1.gameIdToGame = mapLookup k gm.gameIdToGame) ∧
      (∀ k : PlayerId, (∀ q ∈ G.playerIdToPlayer, q.id ≠ k) →
        mapLookup k gm1.playerIdToGame = mapLookup k gm.playerIdToGame ∧
        (k ∈ closed1 ↔ k ∈ closed)) := by
  refine ⟨{ gameIdToGame := mapDelete G.id gm.gameIdToGame
            playerIdToGame := gm.playerIdToGame.filter
              (fun e => !(G.playerIdToPlayer.any (fun x => x.id == e.1))) },
    (G.playerIdToPlayer.map player.id).reverse ++ closed, ?_, ?_, ?_, ?_, ?_⟩
  · simp only [gameManager.leaveGame, hmaps, leaveLoop_ok _ gm closed hnodup hopen, bind,
      Except.bind]
  · simp [mapLookup_delete]
  · intro q hq
    constructor
    · show mapLookup q.id (gm.playerIdToGame.filter
        (fun e => !(G.playerIdToPlayer.any (fun x => x.id == e.1)))) = none
      rw [mapLookup_filter (fun k => !(G.playerIdToPlayer.any (fun x => x.id == k)))]
      simp [any_id_true _ q hq]
    · simp only [List.mem_append, List.mem_reverse, List.mem_map]
      exact Or.inl ⟨q, hq, rfl⟩
  · intro k hk
    simp [mapLookup_delete, hk]
  · intro k hk
    constructor
    · show mapLookup k (gm.playerIdToGame.filter
        (fun e => !(G.playerIdToPlayer.any (fun x => x.id == e.1)))) = _
      rw [mapLookup_filter (fun k => !(G.playerIdToPlayer.any (fun x => x.id == k)))]
      simp [any_id_false _ k hk]
    · simp only [List.mem_append, List.mem_reverse, List.mem_map]
      constructor
      · rintro (⟨q, hq, rfl⟩ | h)
        · exact absurd rfl (hk q hq)
        · exact h
      · exact fun h => Or.inr h

/-- Witness of C8, amended: `joinerB` leaves `G1` while all channels are open. -/
theorem leaveGame_tears_down_witness :
    ∃ gm1 closed1, twoSessions.leaveGame [] "B" = .ok (gm1, closed1) ∧
      mapLookup gameOne.id gm1.gameIdToGame = none ∧
      (∀ q ∈ gameOne.playerIdToPlayer,
        mapLookup q.id gm1.playerIdToGame = none ∧ q.id ∈ closed1) ∧
      (∀ k : GameId, k ≠ gameOne.id →
        mapLookup k gm1.gameIdToGame = mapLookup k twoSessions.gameIdToGame) ∧
      (∀ k : PlayerId, (∀ q ∈ gameOne.playerIdToPlayer, q.id ≠ k) →
        mapLookup k gm1.playerIdToGame = mapLookup k twoSessions.playerIdToGame ∧
        (k ∈ closed1 ↔ k ∈ ([] : List PlayerId))) :=
  leaveGame_tears_down twoSessions [] "B" gameOne rfl (by decide) (by decide)

/-- Counterexample to C8 as stated, in the registry where `hostA` hosts both `G1`
and `G2`: `joinerB` maps to `G1` and `hostA` maps to `G2`. After `leaveGame` for
`joinerB` the entry of `hostA`, an entry of the other session `G2`, is gone; and
the following `leaveGame` for `thirdC`, who still maps to `G2`, does not tear `G2`
down: it panics on closing the channel of `hostA` a second time. -/
theorem leaveGame_other_session_counterexample :
    (mapLookup "B" twoSessions.playerIdToGame).map game.id = some "G1" ∧
    (mapLookup "A" twoSessions.playerIdToGame).map game.id = some "G2" ∧
    ∃ gm1 closed1, twoSessions.leaveGame [] "B" = .ok (gm1, closed1) ∧
      (mapLookup "A" gm1.playerIdToGame).map game.id = none ∧
      (mapLookup "C" gm1.playerIdToGame).map game.id = some "G2" ∧
      gm1.leaveGame closed1 "C" = .error Panic.closeOfClosedChannel := by
  refine ⟨by decide, by decide, _, _, rfl, ?_, ?_, ?_⟩
  · decide
  · decide
  · rfl

/-- The state `handleMove` returns: the game as it was, or the game with a new
board and a player of the game other than the mover as turn holder. -/
theorem handleMove_ok_cases (g g1 : game) (m : Move) (sends : List Send)
    (hok : g.handleMove m = .ok (g1, sends)) :
    g1 = g ∨ ∃ (board1 : Board) (o : player), o ∈ g.playerIdToPlayer ∧ o.id ≠ m.PlayerId ∧
      g1 = { g with board := board1, whoseTurn := some o } := by
  cases hturn : g.whoseTurn with
  | none => simp [game.handleMove, hturn] at hok
  | some t =>
    cases hpl : (findPlayers g.playerIdToPlayer m.PlayerId).1 with
    | none => simp [game.handleMove, hturn, hpl] at hok
    | some pl =>
      by_cases hne : t.id = pl.id
      · cases hr : boardIndex m.From.Row with
        | error e => simp [game.handleMove, hturn, hpl, hne, hr, bind, Except.bind] at hok
        | ok r =>
          cases hc : boardIndex m.From.Col with
          | error e => simp [game.handleMove, hturn, hpl, hne, hr, hc, bind, Except.bind] at hok
          | ok c =>
            have hr1 := boardIndex_ok _ _ hr
            have hc1 := boardIndex_ok _ _ hc
            cases hcell : g.board r c with
            | none =>
              rw [handleMove_empty g m t pl r c hturn hpl hne hr1 hc1 hcell] at hok
              cases hok; exact Or.inl rfl
            | some pc =>
              cases hmove : pc.move m g.board with
              | error e =>
                simp [game.handleMove, hturn, hpl, hne, hr, hc, bind, Except.bind, hcell,
                  hmove] at hok
              | ok res =>
                obtain ⟨board1, err⟩ := res
                cases ho : (findPlayers g.playerIdToPlayer m.PlayerId).2 with
                | none =>
                  have hmem := (findPlayers_fst_some _ _ _ hpl).1
                  obtain ⟨p0, rest, hps⟩ := List.exists_cons_of_ne_nil (List.ne_nil_of_mem hmem)
                  have hred : game.redrawAllScreens
                      { g with board := board1, whoseTurn := none } =
                      .error Panic.nilPointerDereference := by
                    simp only [game.redrawAllScreens, hps]
                    exact redrawLoop_none _ rfl _ _
                  simp [game.handleMove, hturn, hpl, hne, hr, hc, bind, Except.bind, hcell,
                    hmove, ho, hred] at hok
                | some o =>
                  rw [handleMove_applied g m t pl o r c pc board1 err hturn hpl ho hne hr1 hc1
                    hcell hmove] at hok
                  cases hok
                  obtain ⟨ho1, ho2⟩ := findPlayers_snd_some _ _ _ ho
                  exact Or.inr ⟨board1, o, ho1, ho2, rfl⟩
      · rw [handleMove_rejected g m t pl hturn hpl hne] at hok
        cases hok; exact Or.inl rfl

theorem addSecondPlayer_ok (g g1 : game) (p : player) (sends : List Send)
    (hok : g.addSecondPlayer p = .ok (g1, sends)) :
    g1.playerIdToPlayer = mapStore g.playerIdToPlayer p ∧
    g1.whoseTurn = if p.isWhite then some p else g.whoseTurn := by
  unfold game.addSecondPlayer at hok
  simp only [bind, Except.bind] at hok
  split at hok
  · cases hok
  · cases hok
    by_cases hw : p.isWhite = true
    · simp [hw]
    · simp [hw]

theorem newGame_ok (id : GameId) (p : player) (g : game) (sends : List Send)
    (hok : newGame id p = .ok (g, sends)) :
    g.playerIdToPlayer = [p] ∧ g.whoseTurn = if p.isWhite then some p else none := by
  unfold newGame at hok
  simp only [bind, Except.bind] at hok
  split at hok
  · cases hok
  · cases hok
    by_cases hw : p.isWhite = true
    · simp [hw]
    · simp [hw]

theorem mapStore_length (ps : List player) (p : player) :
    (mapStore ps p).length ≤ ps.length + 1 := by
  unfold mapStore
  split
  · simp
  · simp

theorem mapStore_mem_self (ps : List player) (p : player) :
    ∃ q ∈ mapStore ps p, q.id = p.id := by
  unfold mapStore
  split
  · rename_i h
    rw [List.any_eq_true] at h
    obtain ⟨q, hq, hid⟩ := h
    refine ⟨p, ?_, rfl⟩
    rw [List.mem_map]
    exact ⟨q, hq, by simp at hid; simp [hid]⟩
  · exact ⟨p, by simp, rfl⟩

theorem mapStore_mem_old (ps : List player) (p q : player) (hq : q ∈ ps) :
    ∃ x ∈ mapStore ps p, x.id = q.id := by
  unfold mapStore
  split
  · by_cases h : q.id = p.id
    · exact ⟨p, by rw [List.mem_map]; exact ⟨q, hq, by simp [h]⟩, h.symm⟩
    · exact ⟨q, by rw [List.mem_map]; exact ⟨q, hq, by simp [h]⟩, rfl⟩
  · exact ⟨q, by simp [hq], rfl⟩

theorem run_cons_ok (g g2 : game) (a : Action) (rest : List Action) (sends : List Send)
    (hok : g.run (a :: rest) = .ok (g2, sends)) :
    ∃ g1 s1 s2, g.step a = .ok (g1, s1) ∧ g1.run rest = .ok (g2, s2) := by
  simp only [game.run, bind, Except.bind] at hok
  cases h1 : g.step a with
  | error e => rw [h1] at hok; cases hok
  | ok r1 =>
    obtain ⟨g1, s1⟩ := r1
    rw [h1] at hok
    simp only at hok
    cases h2 : g1.run rest with
    | error e => rw [h2] at hok; cases hok
    | ok r2 =>
      obtain ⟨g2a, s2⟩ := r2
      rw [h2] at hok
      simp only [Except.ok.injEq, Prod.mk.injEq] at hok
      obtain ⟨hg, -⟩ := hok
      subst hg
      exact ⟨g1, s1, s2, rfl, h2⟩

theorem playSession_ok (id : GameId) (p : player) (acts : List Action) (g : game)
    (sends : List Send) (hok : playSession id p acts = .ok (g, sends)) :
    ∃ g0 s0 s, newGame id p = .ok (g0, s0) ∧ g0.run acts = .ok (g, s) := by
  simp only [playSession, bind, Except.bind] at hok
  cases h1 : newGame id p with
  | error e => rw [h1] at hok; cases hok
  | ok r1 =>
    obtain ⟨g0, s0⟩ := r1
    rw [h1] at hok
    simp only at hok
    cases h2 : g0.run acts with
    | error e => rw [h2] at hok; cases hok
    | ok r2 =>
      obtain ⟨g2a, s2⟩ := r2
      rw [h2] at hok
      simp only [Except.ok.injEq, Prod.mk.injEq] at hok
      obtain ⟨hg, -⟩ := hok
      subst hg
      exact ⟨g0, s0, s2, rfl, h2⟩

theorem run_length_le (acts : List Action) (g g1 : game) (sends : List Send)
    (hok : g.run acts = .ok (g1, sends)) :
    g1.playerIdToPlayer.length ≤ g.playerIdToPlayer.length + countJoins acts := by
  induction acts generalizing g sends with
  | nil =>
    simp only [game.run] at hok
    cases hok
    simp [countJoins]
  | cons a rest ih =>
    obtain ⟨g', s1, s2, hstep, hrun⟩ := run_cons_ok g g1 a rest sends hok
    have hrest := ih g' s2 hrun
    cases a with
    | addSecondPlayer p =>
      have h := (addSecondPlayer_ok g g' p s1 hstep).1
      have hl := mapStore_length g.playerIdToPlayer p
      rw [← h] at hl
      simp only [countJoins]
      omega
    | handleMove m =>
      have hsame : g'.playerIdToPlayer = g.playerIdToPlayer := by
        rcases handleMove_ok_cases g g' m s1 hstep with h | ⟨b, o, -, -, h⟩
        · rw [h]
        · rw [h]
      rw [hsame] at hrest
      simp only [countJoins]
      exact hrest

theorem step_turnHolderPresent (g g1 : game) (a : Action) (sends : List Send)
    (hinv : turnHolderPresent g) (hstep : g.step a = .ok (g1, sends)) :
    turnHolderPresent g1 := by
  cases a with
  | addSecondPlayer p =>
    obtain ⟨hps, hturn⟩ := addSecondPlayer_ok g g1 p sends hstep
    intro t ht
    rw [hps]
    rw [hturn] at ht
    by_cases hw : p.isWhite = true
    · simp only [hw, if_true] at ht
      have hpt : p = t := Option.some.inj ht
      rw [← hpt]
      exact mapStore_mem_self _ _
    · simp only [hw] at ht
      obtain ⟨q, hq, hid⟩ := hinv t ht
      obtain ⟨x, hx, hxid⟩ := mapStore_mem_old g.playerIdToPlayer p q hq
      exact ⟨x, hx, by rw [hxid, hid]⟩
  | handleMove m =>
    rcases handleMove_ok_cases g g1 m sends hstep with h | ⟨b, o, ho, -, h⟩
    · rw [h]; exact hinv
    · rw [h]
      intro t ht
      have hot : o = t := Option.some.inj ht
      exact ⟨o, ho, by rw [hot]⟩

theorem run_turnHolderPresent (acts : List Action) (g g1 : game) (sends : List Send)
    (hinv : turnHolderPresent g) (hok : g.run acts = .ok (g1, sends)) :
    turnHolderPresent g1 := by
  induction acts generalizing g sends with
  | nil =>
    simp only [game.run] at hok
    cases hok
    exact hinv
  | cons a rest ih =>
    obtain ⟨g', s1, s2, hstep, hrun⟩ := run_cons_ok g g1 a rest sends hok
    exact ih g' s2 (step_turnHolderPresent g g' a s1 hinv hstep) hrun

/-! ## Invariants of a session -/

/-- Counterexample to C9 as stated: after the host has created the session, two
joins with two further tokens leave three entries in the player map. -/
theorem players_three_counterexample :
    ∃ g sends,
      playSession "G" hostA [Action.addSecondPlayer joinerB, Action.addSecondPlayer thirdC] =
        .ok (g, sends) ∧
      g.playerIdToPlayer = [hostA, joinerB, thirdC] ∧ ¬ g.playerIdToPlayer.length ≤ 2 :=
  ⟨_, _, rfl, rfl, by decide⟩

/-- C9, amended: in every state a session reaches from `newGame` through joins and
moves, the player map has at most one entry more than the number of joins applied;
so it has at most 2 entries as long as at most one join has been applied. -/
theorem players_le_one_add_joins (id : GameId) (p : player) (acts : List Action) (g : game)
    (hreach : ∃ sends, playSession id p acts = .ok (g, sends)) :
    g.playerIdToPlayer.length ≤ 1 + countJoins acts ∧
    (countJoins acts ≤ 1 → g.playerIdToPlayer.length ≤ 2) := by
  obtain ⟨sends, hok⟩ := hreach
  obtain ⟨g0, s0, s, hnew, hrun⟩ := playSession_ok id p acts g sends hok
  have h0 := (newGame_ok id p g0 s0 hnew).1
  have h := run_length_le acts g0 g s hrun
  rw [h0] at h
  simp only [List.length_singleton] at h
  exact ⟨by omega, fun hj => by omega⟩

/-- Witness of C9, amended: the session after one join. -/
theorem players_le_one_add_joins_witness :
    startedGame.playerIdToPlayer.length ≤ 1 + countJoins [Action.addSecondPlayer joinerB] ∧
    (countJoins [Action.addSecondPlayer joinerB] ≤ 1 → startedGame.playerIdToPlayer.length ≤ 2) :=
  players_le_one_add_joins "G" hostA [Action.addSecondPlayer joinerB] startedGame ⟨_, rfl⟩

/-- C10: in every state a session reaches from `newGame` through joins and moves,
the turn holder, when set, has the id of a player present in the player map. -/
theorem turn_holder_is_player (id : GameId) (p : player) (acts : List Action) (g : game)
    (t : player)
    (hreach : ∃ sends, playSession id p acts = .ok (g, sends))
    (hturn : g.whoseTurn = some t) :
    ∃ q ∈ g.playerIdToPlayer, q.id = t.id := by
  obtain ⟨sends, hok⟩ := hreach
  obtain ⟨g0, s0, s, hnew, hrun⟩ := playSession_ok id p acts g sends hok
  obtain ⟨hps, hwt⟩ := newGame_ok id p g0 s0 hnew
  have hinv0 : turnHolderPresent g0 := by
    intro t0 ht0
    rw [hwt] at ht0
    rw [hps]
    by_cases hw : p.isWhite = true
    · simp only [hw, if_true] at ht0
      have hpt : p = t0 := Option.some.inj ht0
      exact ⟨p, by simp, by rw [hpt]⟩
    · simp [hw] at ht0
  exact run_turnHolderPresent acts g0 g s hinv0 hrun t hturn

/-- Witness of C10: the session after one join; the host holds the turn. -/
theorem turn_holder_is_player_witness :
    ∃ q ∈ startedGame.playerIdToPlayer, q.id = hostA.id :=
  turn_holder_is_player "G" hostA [Action.addSecondPlayer joinerB] startedGame hostA
    ⟨_, rfl⟩ rfl

theorem leaveLoop_maps (ps : List player) (gm gm1 : gameManager) (closed closed1 : List PlayerId)
    (hok : leaveLoop ps gm closed = .ok (gm1, closed1)) :
    gm1.gameIdToGame = gm.gameIdToGame ∧
    gm1.playerIdToGame =
      gm.playerIdToGame.filter (fun e => !(ps.any (fun q => q.id == e.1))) := by
  induction ps generalizing gm closed with
  | nil =>
    simp only [leaveLoop] at hok
    cases hok
    simp
  | cons p rest ih =>
    simp only [leaveLoop, bind, Except.bind] at hok
    cases hclose : closeChan closed p.id with
    | error e => rw [hclose] at hok; cases hok
    | ok closed2 =>
      rw [hclose] at hok
      simp only at hok
      obtain ⟨h1, h2⟩ := ih _ _ hok
      refine ⟨h1, ?_⟩
      rw [h2]
      simp only [mapDelete, List.filter_filter, List.any_cons]
      apply List.filter_congr
      intro e _
      by_cases h : p.id = e.1
      · simp [h]
      · have h2 : ¬ e.1 = p.id := fun x => h x.symm
        have hb1 : (p.id == e.1) = false := by simp [h]
        have hb2 : (e.1 != p.id) = true := by simp [h2]
        simp [hb1, hb2]

theorem leaveGame_absent (gm : gameManager) (closed : List PlayerId) (playerId : PlayerId)
    (habsent : mapLookup playerId gm.playerIdToGame = none) :
    gm.leaveGame closed playerId = .ok (gm, closed) := by
  simp only [gameManager.leaveGame, habsent]

theorem leaveGame_ok_players (gm gm1 : gameManager) (closed closed1 : List PlayerId)
    (playerId : PlayerId) (G : game)
    (hmaps : mapLookup playerId gm.playerIdToGame = some G)
    (hok : gm.leaveGame closed playerId = .ok (gm1, closed1)) :
    gm1.playerIdToGame =
      gm.playerIdToGame.filter (fun e => !(G.playerIdToPlayer.any (fun q => q.id == e.1))) := by
  simp only [gameManager.leaveGame, hmaps, bind, Except.bind] at hok
  cases hloop : leaveLoop G.playerIdToPlayer gm closed with
  | error e => rw [hloop] at hok; cases hok
  | ok res =>
    obtain ⟨gm2, closed2⟩ := res
    rw [hloop] at hok
    simp only [Except.ok.injEq, Prod.mk.injEq] at hok
    obtain ⟨hgm, -⟩ := hok
    rw [← hgm]
    exact (leaveLoop_maps _ _ _ _ _ hloop).2

/-! ## Leaving twice -/

/-- C16: for a player token that is not a key of the player map, `leaveGame`
returns the registry and the channels as they were; and after a `leaveGame` that
has returned for a token mapping to the game `G`, no player of `G` is a key of the
player map, so `leaveGame` for any player of `G` changes nothing. -/
theorem leaveGame_noop (gm : gameManager) (closed : List PlayerId) (playerId : PlayerId) :
    (mapLookup playerId gm.playerIdToGame = none →
      gm.leaveGame closed playerId = .ok (gm, closed)) ∧
    (∀ (G : game) (gm1 : gameManager) (closed1 : List PlayerId) (q : player),
      mapLookup playerId gm.playerIdToGame = some G → q ∈ G.playerIdToPlayer →
      gm.leaveGame closed playerId = .ok (gm1, closed1) →
      mapLookup q.id gm1.playerIdToGame = none ∧
      gm1.leaveGame closed1 q.id = .ok (gm1, closed1)) := by
  refine ⟨leaveGame_absent gm closed playerId, ?_⟩
  intro G gm1 closed1 q hmaps hq hok
  have habsent : mapLookup q.id gm1.playerIdToGame = none := by
    rw [leaveGame_ok_players gm gm1 closed closed1 playerId G hmaps hok]
    rw [mapLookup_filter (fun k => !(G.playerIdToPlayer.any (fun x => x.id == k)))]
    simp [any_id_true _ q hq]
  exact ⟨habsent, leaveGame_absent gm1 closed1 q.id habsent⟩

/-- Witness of C16: an unknown token, and the joiner leaving after the host has left. -/
theorem leaveGame_noop_witness :
    startedRegistry.leaveGame [] "Z" = .ok (startedRegistry, []) ∧
    ∃ gm1 closed1, startedRegistry.leaveGame [] "A" = .ok (gm1, closed1) ∧
      mapLookup "B" gm1.playerIdToGame = none ∧
      gm1.leaveGame closed1 "B" = .ok (gm1, closed1) :=
  ⟨(leaveGame_noop startedRegistry [] "Z").1 rfl, _, _, rfl,
    (leaveGame_noop startedRegistry [] "A").2 startedGame _ _ joinerB rfl (by decide) rfl⟩

theorem newGame_white (id : GameId) (p : player) (hwhite : p.isWhite = true) :
    newGame id p = .ok
      ({ id := id, board := newBoard, playerIdToPlayer := [p], whoseTurn := some p },
       [{ chan := p.id,
          frame := game.frameFor
            { id := id, board := newBoard, playerIdToPlayer := [p], whoseTurn := some p }
            p p "" }]) := by
  simp only [newGame, hwhite, if_true, game.redrawAllScreens, bind, Except.bind]
  rw [redrawLoop_ok _ p rfl]
  rfl

theorem newGame_not_white (id : GameId) (p : player) (hblack : p.isWhite = false) :
    newGame id p = .error Panic.nilPointerDereference := by
  simp only [newGame, hblack, game.redrawAllScreens, bind, Except.bind]
  rw [show (if false = true then
      ({ id := id, board := newBoard, playerIdToPlayer := [p], whoseTurn := some p } : game)
    else { id := id, board := newBoard, playerIdToPlayer := [p], whoseTurn := none }) =
      { id := id, board := newBoard, playerIdToPlayer := [p], whoseTurn := none } from rfl]
  rw [redrawLoop_none _ rfl]

/-! ## The initial board and the frames -/

/-- C14: `newBoard` is the standard starting position: row 0 is the black back
rank and row 7 the white back rank, in the order rook, knight, bishop, queen, king,
bishop, knight, rook; row 1 is eight black pawns and row 6 eight white pawns; rows
2 to 5 are empty. The frame `createNextFrame` builds of the game a white host has
just created shows exactly this position, with `IsGameStarted` false. -/
theorem newBoard_standard_position (id : GameId) (p : player) (msg : String)
    (hwhite : p.isWhite = true) :
    (∀ c : Fin 8, newBoard 0 c = some (backRank false c)) ∧
    (∀ c : Fin 8, newBoard 1 c = some (newPawn false)) ∧
    (∀ r c : Fin 8, 2 ≤ r.val → r.val ≤ 5 → newBoard r c = none) ∧
    (∀ c : Fin 8, newBoard 6 c = some (newPawn true)) ∧
    (∀ c : Fin 8, newBoard 7 c = some (backRank true c)) ∧
    (∀ r c : Fin 8, newBoard r c = standardPosition r c) ∧
    ∃ g sends frame, newGame id p = .ok (g, sends) ∧
      g.playerIdToPlayer = [p] ∧
      g.createNextFrame p msg = .ok frame ∧
      frame.Board = standardView ∧ frame.IsGameStarted = false := by
  refine ⟨by decide, by decide, by decide, by decide, by decide, by decide, ?_⟩
  refine ⟨_, _, _, newGame_white id p hwhite, rfl, createNextFrame_frameFor _ p p msg rfl, ?_, rfl⟩
  show boardView newBoard = standardView
  decide

/-- Witness of C14: the game the white host `hostA` creates. -/
theorem newBoard_standard_position_witness :
    (∀ c : Fin 8, newBoard 0 c = some (backRank false c)) ∧
    (∀ c : Fin 8, newBoard 1 c = some (newPawn false)) ∧
    (∀ r c : Fin 8, 2 ≤ r.val → r.val ≤ 5 → newBoard r c = none) ∧
    (∀ c : Fin 8, newBoard 6 c = some (newPawn true)) ∧
    (∀ c : Fin 8, newBoard 7 c = some (backRank true c)) ∧
    (∀ r c : Fin 8, newBoard r c = standardPosition r c) ∧
    ∃ g sends frame, newGame "G" hostA = .ok (g, sends) ∧
      g.playerIdToPlayer = [hostA] ∧
      g.createNextFrame hostA "" = .ok frame ∧
      frame.Board = standardView ∧ frame.IsGameStarted = false :=
  newBoard_standard_position "G" hostA "" rfl

theorem constructed_name_ne_empty (pc : piece) (h : pc.constructed = true) : pc.name ≠ "" := by
  cases pc <;> simp only [piece.constructed, beq_iff_eq] at h <;> subst h <;>
    simp only [piece.name] <;> decide

theorem boardView_length (board : Board) : (boardView board).length = 8 := by
  simp [boardView]

theorem boardView_row (board : Board) (r : Fin 8) :
    (boardView board)[r.val]? =
      some ((List.finRange 8).map (fun c => pieceView (board r c))) := by
  simp [boardView, List.getElem?_map, List.getElem?_eq_getElem, r.isLt]

theorem boardView_cell (board : Board) (r c : Fin 8) :
    ((List.finRange 8).map (fun c => pieceView (board r c)))[c.val]? =
      some (pieceView (board r c)) := by
  simp [List.getElem?_map, List.getElem?_eq_getElem, c.isLt]

theorem constructed_cases (pc : piece) (h : pc.constructed = true) :
    ∃ w : Bool, pc = newPawn w ∨ pc = newKnight w ∨ pc = newBishop w ∨ pc = newRook w ∨
      pc = newQueen w ∨ pc = newKing w := by
  cases pc with
  | pawn w n =>
    simp only [piece.constructed, beq_iff_eq] at h
    subst h; exact ⟨w, Or.inl rfl⟩
  | king w n =>
    simp only [piece.constructed, beq_iff_eq] at h
    subst h; exact ⟨w, Or.inr (Or.inr (Or.inr (Or.inr (Or.inr rfl))))⟩
  | queen w n =>
    simp only [piece.constructed, beq_iff_eq] at h
    subst h; exact ⟨w, Or.inr (Or.inr (Or.inr (Or.inr (Or.inl rfl))))⟩
  | knight w n =>
    simp only [piece.constructed, beq_iff_eq] at h
    subst h; exact ⟨w, Or.inr (Or.inl rfl)⟩
  | bishop w n =>
    simp only [piece.constructed, beq_iff_eq] at h
    subst h; exact ⟨w, Or.inr (Or.inr (Or.inl rfl))⟩
  | rook w n =>
    simp only [piece.constructed, beq_iff_eq] at h
    subst h; exact ⟨w, Or.inr (Or.inr (Or.inr (Or.inl rfl)))⟩

/-- C15: when the turn holder is set (and every piece on the board is as its
constructor builds it, which holds in every state a session reaches, see
`playSession_boardConstructed`), `createNextFrame` returns a frame with the id of
the game; with a board view of exactly 8 rows of exactly 8 cells, where cell (r,c)
is the empty view exactly when `board[r][c]` is empty; where every occupied cell
holds a pawn, knight, bishop, rook, queen or king of some colour, and the view of
that cell carries this colour and the name "pawn", "knight", "bishop", "rook",
"queen" or "king" of its kind; with `IsGameStarted` true iff exactly two players
are present; with `IsTurn` true iff the player has the id of the turn holder; with
the colour of the player; and with the given message. -/
theorem createNextFrame_fields (g : game) (t p : player) (msg : String)
    (hturn : g.whoseTurn = some t) (hpieces : boardConstructed g.board) :
    ∃ frame, g.createNextFrame p msg = .ok frame ∧
      frame.GameId = g.id ∧
      frame.Board.length = 8 ∧
      (∀ r c : Fin 8, ∃ row cell,
        frame.Board[r.val]? = some row ∧ row.length = 8 ∧ row[c.val]? = some cell ∧
        (cell = { IsWhite := false, Name := "" } ↔ g.board r c = none) ∧
        (∀ pc, g.board r c = some pc → cell = { IsWhite := pc.isWhite, Name := pc.name }) ∧
        (∀ pc, g.board r c = some pc →
          ∃ w : Bool, pc = newPawn w ∨ pc = newKnight w ∨ pc = newBishop w ∨
            pc = newRook w ∨ pc = newQueen w ∨ pc = newKing w) ∧
        (∀ w : Bool,
          (g.board r c = some (newPawn w) → cell = { IsWhite := w, Name := "pawn" }) ∧
          (g.board r c = some (newKnight w) → cell = { IsWhite := w, Name := "knight" }) ∧
          (g.board r c = some (newBishop w) → cell = { IsWhite := w, Name := "bishop" }) ∧
          (g.board r c = some (newRook w) → cell = { IsWhite := w, Name := "rook" }) ∧
          (g.board r c = some (newQueen w) → cell = { IsWhite := w, Name := "queen" }) ∧
          (g.board r c = some (newKing w) → cell = { IsWhite := w, Name := "king" }))) ∧
      (frame.IsGameStarted = true ↔ g.playerIdToPlayer.length = 2) ∧
      (frame.IsTurn = true ↔ t.id = p.id) ∧
      frame.IsWhite = p.isWhite ∧
      frame.Msg = msg := by
  refine ⟨g.frameFor t p msg, createNextFrame_frameFor g t p msg hturn, rfl,
    boardView_length g.board, ?_, ?_, ?_, rfl, rfl⟩
  · intro r c
    refine ⟨_, pieceView (g.board r c), boardView_row g.board r, by simp,
      boardView_cell g.board r c, ?_, ?_, ?_, ?_⟩
    · cases hcell : g.board r c with
      | none => simp [pieceView]
      | some pc =>
        have hname := constructed_name_ne_empty pc (hpieces r c pc hcell)
        simp [pieceView, hname]
    · intro pc hpc
      rw [hpc]
      rfl
    · intro pc hpc
      exact constructed_cases pc (hpieces r c pc hpc)
    · intro w
      refine ⟨?_, ?_, ?_, ?_, ?_, ?_⟩ <;> intro hpc <;> rw [hpc] <;> rfl
  · simp [game.frameFor]
  · simp [game.frameFor]

theorem newBoard_constructed : boardConstructed newBoard := by
  intro r c pc h
  have key : ∀ r c : Fin 8, ∀ pc, newBoard r c = some pc → pc.constructed = true := by
    intro r c
    have hall : ∀ r c : Fin 8,
        (match newBoard r c with | some pc => pc.constructed | none => true) = true := by
      decide
    intro pc hpc
    have := hall r c
    rw [hpc] at this
    exact this
  exact key r c pc h

/-- Witness of C15: a frame for the joiner of the two-player game on the initial board. -/
theorem createNextFrame_fields_witness :
    ∃ frame, startedGame.createNextFrame joinerB "hello" = .ok frame ∧
      frame.GameId = startedGame.id ∧
      frame.Board.length = 8 ∧
      (∀ r c : Fin 8, ∃ row cell,
        frame.Board[r.val]? = some row ∧ row.length = 8 ∧ row[c.val]? = some cell ∧
        (cell = { IsWhite := false, Name := "" } ↔ startedGame.board r c = none) ∧
        (∀ pc, startedGame.board r c = some pc →
          cell = { IsWhite := pc.isWhite, Name := pc.name }) ∧
        (∀ pc, startedGame.board r c = some pc →
          ∃ w : Bool, pc = newPawn w ∨ pc = newKnight w ∨ pc = newBishop w ∨
            pc = newRook w ∨ pc = newQueen w ∨ pc = newKing w) ∧
        (∀ w : Bool,
          (startedGame.board r c = some (newPawn w) →
            cell = { IsWhite := w, Name := "pawn" }) ∧
          (startedGame.board r c = some (newKnight w) →
            cell = { IsWhite := w, Name := "knight" }) ∧
          (startedGame.board r c = some (newBishop w) →
            cell = { IsWhite := w, Name := "bishop" }) ∧
          (startedGame.board r c = some (newRook w) →
            cell = { IsWhite := w, Name := "rook" }) ∧
          (startedGame.board r c = some (newQueen w) →
            cell = { IsWhite := w, Name := "queen" }) ∧
          (startedGame.board r c = some (newKing w) →
            cell = { IsWhite := w, Name := "king" }))) ∧
      (frame.IsGameStarted = true ↔ startedGame.playerIdToPlayer.length = 2) ∧
      (frame.IsTurn = true ↔ hostA.id = joinerB.id) ∧
      frame.IsWhite = joinerB.isWhite ∧
      frame.Msg = "hello" :=
  createNextFrame_fields startedGame hostA joinerB "hello" rfl newBoard_constructed

/-! ## The inbound dispatch -/

/-- C17: the read loop selects one call in fixed priority: `startNewGame` for the
connection marked white when `StartGame` is true, whatever the other fields hold;
otherwise `addSecondPlayer` for the game `JoinGame` when it is not empty; otherwise
the move, stamped with the id of the connection, whatever player id the decoded
move carried. -/
theorem dispatch_priority (p : player) (playerAction : PlayerAction) :
    (playerAction.StartGame = true →
      p.gameReadLoopStep playerAction = Request.startNewGame { id := p.id, isWhite := true }) ∧
    (playerAction.StartGame = false → playerAction.JoinGame ≠ "" →
      p.gameReadLoopStep playerAction = Request.addSecondPlayer p playerAction.JoinGame) ∧
    (playerAction.StartGame = false → playerAction.JoinGame = "" →
      p.gameReadLoopStep playerAction =
        Request.incomingMove
          { PlayerId := p.id, From := playerAction.Move.From, To := playerAction.Move.To }) := by
  refine ⟨?_, ?_, ?_⟩
  · intro h
    simp [player.gameReadLoopStep, h]
  · intro h hj
    simp [player.gameReadLoopStep, h, hj]
  · intro h hj
    simp [player.gameReadLoopStep, h, hj]

theorem mapLookup_append_absent {V : Type} (k : String) (v : V) (m : List (String × V))
    (h : m.any (fun e => e.1 == k) = false) : mapLookup k (m ++ [(k, v)]) = some v := by
  induction m with
  | nil => simp [mapLookup_cons, mapLookup_nil]
  | cons e rest ih =>
    simp only [List.any_cons, Bool.or_eq_false_iff] at h
    have hne : ¬ e.1 = k := by
      intro heq
      have h1 := h.1
      simp [heq] at h1
    rw [List.cons_append, mapLookup_cons, if_neg hne]
    exact ih h.2

theorem mapLookup_replace_present {V : Type} (k : String) (v : V) (m : List (String × V))
    (h : m.any (fun e => e.1 == k) = true) :
    mapLookup k (m.map (fun e => if e.1 = k then (k, v) else e)) = some v := by
  induction m with
  | nil => simp at h
  | cons e rest ih =>
    rw [List.map_cons, mapLookup_cons]
    by_cases he : e.1 = k
    · simp [he]
    · simp only [he, if_false]
      simp only [List.any_cons, Bool.or_eq_true] at h
      rcases h with h | h
      · exact absurd (by simpa using h) he
      · exact ih h

theorem mapLookup_insert_same {V : Type} (k : String) (v : V) (m : List (String × V)) :
    mapLookup k (mapInsert k v m) = some v := by
  unfold mapInsert
  split
  · rename_i h
    exact mapLookup_replace_present k v m h
  · rename_i h
    exact mapLookup_append_absent k v m (Bool.eq_false_iff.mpr h)

theorem deliver_open (closed : List PlayerId) (sends : List Send)
    (h : ∀ s ∈ sends, s.chan ∉ closed) : deliver closed sends = .ok (sends.map Event.send) := by
  unfold deliver
  have hany : sends.any (fun s => decide (s.chan ∈ closed)) = false := by
    rw [List.any_eq_false]
    intro s hs
    simp [h s hs]
  simp [hany]

theorem sendsOf_map_send (sends : List Send) : sendsOf (sends.map Event.send) = sends := by
  induction sends with
  | nil => rfl
  | cons s rest ih => simp [sendsOf, ih]

theorem sendsOf_append (xs ys : List Event) : sendsOf (xs ++ ys) = sendsOf xs ++ sendsOf ys := by
  induction xs with
  | nil => rfl
  | cons e rest ih => cases e <;> simp [sendsOf, ih]

theorem startNewGame_ok (gm : gameManager) (closed : List PlayerId) (id : GameId) (p : player)
    (g : game) (sends : List Send) (hnew : newGame id p = .ok (g, sends))
    (hopen : ∀ s ∈ sends, s.chan ∉ closed) :
    gm.startNewGame closed id p = .ok
      ({ gameIdToGame := mapInsert g.id g gm.gameIdToGame
         playerIdToGame := mapInsert p.id g gm.playerIdToGame },
       [Event.lock] ++ sends.map Event.send ++
         [Event.mapWrite, Event.mapWrite, Event.unlock]) := by
  simp only [gameManager.startNewGame, hnew, bind, Except.bind, deliver_open closed sends hopen]

theorem runGamesStep_ok (gm : gameManager) (closed : List PlayerId) (move : Move)
    (g g1 : game) (sends : List Send)
    (hlook : mapLookup move.PlayerId gm.playerIdToGame = some g)
    (hmove : g.handleMove move = .ok (g1, sends))
    (hopen : ∀ s ∈ sends, s.chan ∉ closed) :
    gm.runGamesStep closed move = .ok
      ({ gameIdToGame := syncGame g1 gm.gameIdToGame
         playerIdToGame := syncGame g1 gm.playerIdToGame },
       [Event.mapRead] ++ sends.map Event.send) := by
  simp only [gameManager.runGamesStep, hlook, hmove, bind, Except.bind,
    deliver_open closed sends hopen]

theorem sendsOf_startNewGame_log (sends : List Send) :
    sendsOf ([Event.lock] ++ sends.map Event.send ++
      [Event.mapWrite, Event.mapWrite, Event.unlock]) = sends := by
  simp [sendsOf_append, sendsOf_map_send, sendsOf]

/-- Counterexample to C12 as stated: for a player who is not white, `newGame` leaves
the turn holder nil and the redraw dereferences it; neither `newGame` nor
`startNewGame` returns a session. -/
theorem newGame_black_host_counterexample :
    joinerB.isWhite = false ∧
    newGame "G" joinerB = .error Panic.nilPointerDereference ∧
    newGameManager.startNewGame [] "G" joinerB = .error Panic.nilPointerDereference :=
  ⟨rfl, rfl, rfl⟩

/-- C12, amended: for every white player (the read loop marks the host white before
`startNewGame`) whose channel is open, `newGame` returns a session under the new id
whose player map contains exactly that player and whose turn holder is that player;
`startNewGame` records this session in the game map under the new id and in the
player map under the token of the player; and exactly one frame, with the empty
message, is sent, to that player. -/
theorem startNewGame_white_host (gm : gameManager) (closed : List PlayerId) (id : GameId)
    (p : player) (hwhite : p.isWhite = true) (hopen : p.id ∉ closed) :
    ∃ g frame gm1 log,
      newGame id p = .ok (g, [{ chan := p.id, frame := frame }]) ∧
      g.id = id ∧ g.playerIdToPlayer = [p] ∧ g.whoseTurn = some p ∧
      frame.Msg = "" ∧
      gm.startNewGame closed id p = .ok (gm1, log) ∧
      sendsOf log = [{ chan := p.id, frame := frame }] ∧
      mapLookup id gm1.gameIdToGame = some g ∧
      mapLookup p.id gm1.playerIdToGame = some g := by
  exact ⟨_, _, _, _, newGame_white id p hwhite, rfl, rfl, rfl, rfl,
    startNewGame_ok gm closed id p _ _ (newGame_white id p hwhite)
      (by intro s hs; simp at hs; subst hs; exact hopen),
    sendsOf_startNewGame_log _, mapLookup_insert_same _ _ _, mapLookup_insert_same _ _ _⟩

/-- Witness of C12, amended: `hostA` starts the game "G" in the empty registry. -/
theorem startNewGame_white_host_witness :
    ∃ g frame gm1 log,
      newGame "G" hostA = .ok (g, [{ chan := "A", frame := frame }]) ∧
      g.id = "G" ∧ g.playerIdToPlayer = [hostA] ∧ g.whoseTurn = some hostA ∧
      frame.Msg = "" ∧
      newGameManager.startNewGame [] "G" hostA = .ok (gm1, log) ∧
      sendsOf log = [{ chan := "A", frame := frame }] ∧
      mapLookup "G" gm1.gameIdToGame = some g ∧
      mapLookup "A" gm1.playerIdToGame = some g :=
  startNewGame_white_host newGameManager [] "G" hostA rfl (by decide)

/-- C11, the code at the failing input: `hostA` starts the game "G1" and then the
game "G2", `joinerB` joins "G1", and `hostA` leaves. `leaveGame` closes the channel
of `hostA` and removes "G2"; the game "G1" stays in the game map and in the entry
of `joinerB`, and still contains `hostA`. When `joinerB` leaves next, the channel of
`hostA` is closed a second time; when instead `thirdC` joins "G1", a frame is sent
on the closed channel. Both panic. -/
theorem double_start_closes_twice :
    ∃ gm closed,
      registryRun newGameManager []
        [RegistryOp.startNewGame "G1" hostA, RegistryOp.startNewGame "G2" hostA,
         RegistryOp.addSecondPlayer joinerB "G1", RegistryOp.leaveGame "A"] =
        .ok (gm, closed) ∧
      closed = ["A"] ∧
      (mapLookup "G1" gm.gameIdToGame).map game.playerIdToPlayer = some [hostA, joinerB] ∧
      (mapLookup "B" gm.playerIdToGame).map game.playerIdToPlayer = some [hostA, joinerB] ∧
      registryStep gm closed (RegistryOp.leaveGame "B") =
        .error Panic.closeOfClosedChannel ∧
      registryStep gm closed (RegistryOp.addSecondPlayer thirdC "G1") =
        .error Panic.sendOnClosedChannel :=
  ⟨_, _, rfl, rfl, by decide, by decide, rfl, rfl⟩

theorem mapsUnderLock_mapRead (rest : List Event) :
    mapsUnderLock false (Event.mapRead :: rest) = false := by
  simp [mapsUnderLock]

/-- C18, the code at the failing input: every returning iteration of `runGames`
reads the player map without holding the mutex (the first event is the read, with
no lock before it), as for the move of `hostA` in the started registry; and
`startNewGame` accesses the maps under the mutex but sends the frame of the new game
while holding it. -/
theorem runGames_reads_map_without_lock :
    (∀ (gm gm1 : gameManager) (closed : List PlayerId) (move : Move) (log : List Event),
      gm.runGamesStep closed move = .ok (gm1, log) → mapsUnderLock false log = false) ∧
    (∃ gm1 log,
      startedRegistry.runGamesStep [] ⟨"A", ⟨6, 0⟩, ⟨4, 0⟩⟩ = .ok (gm1, log) ∧
      log.head? = some Event.mapRead ∧ mapsUnderLock false log = false) ∧
    (∃ gm1 log,
      newGameManager.startNewGame [] "G" hostA = .ok (gm1, log) ∧
      mapsUnderLock false log = true ∧ noSendUnderLock false log = false) := by
  refine ⟨?_, ⟨_, _, rfl, rfl, rfl⟩, ⟨_, _, rfl, rfl, rfl⟩⟩
  intro gm gm1 closed move log hok
  unfold gameManager.runGamesStep at hok
  split at hok
  · cases hok
  · simp only [bind, Except.bind] at hok
    split at hok
    · cases hok
    · split at hok
      · cases hok
      · simp only [Except.ok.injEq, Prod.mk.injEq] at hok
        rw [← hok.2]
        exact mapsUnderLock_mapRead _

theorem boardIndex_out (i : Int) (h : i < 0 ∨ 7 < i) :
    boardIndex i = .error Panic.indexOutOfRange := by
  unfold boardIndex
  have : ¬ (0 ≤ i ∧ i < 8) := by omega
  simp [this]

/-- A move of the turn holder whose source is outside the board panics. -/
theorem handleMove_source_out_of_range (g : game) (m : Move) (t : player)
    (hturn : g.whoseTurn = some t) (hmover : t.id = m.PlayerId)
    (hmem : ∃ p ∈ g.playerIdToPlayer, p.id = m.PlayerId)
    (hout : m.From.Row < 0 ∨ 7 < m.From.Row ∨ m.From.Col < 0 ∨ 7 < m.From.Col) :
    g.handleMove m = .error Panic.indexOutOfRange := by
  obtain ⟨pl, hpl, -, hid⟩ := findPlayers_fst_of_mem _ _ hmem
  have heq : t.id = pl.id := by rw [hid]; exact hmover
  simp only [game.handleMove, hturn, hpl]
  simp only [heq, ne_eq, not_true_eq_false, ↓reduceIte]
  by_cases hrow : m.From.Row < 0 ∨ 7 < m.From.Row
  · simp only [boardIndex_out _ hrow, bind, Except.bind]
  · have hcol : m.From.Col < 0 ∨ 7 < m.From.Col := by omega
    cases hr : boardIndex m.From.Row with
    | error e =>
      unfold boardIndex at hr
      split at hr
      · cases hr
      · cases hr; rfl
    | ok r => simp only [boardIndex_out _ hcol, bind, Except.bind]

/-- A move of the turn holder from an occupied cell panics in the redraw when no
other player is in the game. -/
theorem handleMove_alone_panics (g : game) (m : Move) (t : player) (r c : Fin 8) (pc : piece)
    (hplayers : g.playerIdToPlayer = [t]) (hturn : g.whoseTurn = some t)
    (hmover : m.PlayerId = t.id)
    (hr : m.From.Row = ((r : Nat) : Int)) (hc : m.From.Col = ((c : Nat) : Int))
    (hcell : g.board r c = some pc) :
    g.handleMove m = .error Panic.nilPointerDereference := by
  have hfound : findPlayers g.playerIdToPlayer m.PlayerId = (some t, none) := by
    simp [hplayers, findPlayers, findStep, hmover]
  cases hmove : pc.move m g.board with
  | error e =>
    rw [piece_move_eq] at hmove
    unfold moveBody at hmove
    split at hmove
    · cases hmove
    · rw [hr, hc, boardIndex_coe, boardIndex_coe] at hmove
      simp only [bind, Except.bind] at hmove
      rename_i hcb
      unfold Move.checkBounds at hcb
      split at hcb
      · cases hcb
      · rename_i hb
        have h1 : (0 : Int) ≤ m.To.Row ∧ m.To.Row < 8 := by omega
        have h2 : (0 : Int) ≤ m.To.Col ∧ m.To.Col < 8 := by omega
        simp [boardIndex, h1, h2] at hmove
  | ok res =>
    obtain ⟨board1, err⟩ := res
    simp only [game.handleMove, hturn, hfound, hr, hc, boardIndex_coe]
    simp only [ne_eq, not_true_eq_false, ↓reduceIte]
    simp only [bind, Except.bind, hcell, hmove, game.redrawAllScreens, hplayers]
    rw [redrawLoop_none _ rfl]

theorem playSession_host_move_panics (id : GameId) (p : player) (m : Move) (r c : Fin 8)
    (pc : piece) (hwhite : p.isWhite = true) (hmover : m.PlayerId = p.id)
    (hr : m.From.Row = ((r : Nat) : Int)) (hc : m.From.Col = ((c : Nat) : Int))
    (hcell : newBoard r c = some pc) :
    playSession id p [Action.handleMove m] = .error Panic.nilPointerDereference := by
  simp only [playSession, newGame_white id p hwhite, bind, Except.bind, game.run, game.step]
  rw [handleMove_alone_panics _ m p r c pc rfl rfl hmover hr hc hcell]

theorem move_ok_cases (pc : piece) (m : Move) (board board1 : Board) (err : Option String)
    (hmove : pc.move m board = .ok (board1, err)) :
    board1 = board ∨ ∃ fr fc tr tc : Fin 8,
      board1 = setCell (setCell board fr fc none) tr tc (some pc) := by
  rw [piece_move_eq] at hmove
  unfold moveBody at hmove
  split at hmove
  · cases hmove; exact Or.inl rfl
  · simp only [bind, Except.bind] at hmove
    cases h1 : boardIndex m.From.Row with
    | error e => rw [h1] at hmove; cases hmove
    | ok fr =>
      cases h2 : boardIndex m.From.Col with
      | error e => rw [h1, h2] at hmove; cases hmove
      | ok fc =>
        cases h3 : boardIndex m.To.Row with
        | error e => rw [h1, h2, h3] at hmove; cases hmove
        | ok tr =>
          cases h4 : boardIndex m.To.Col with
          | error e => rw [h1, h2, h3, h4] at hmove; cases hmove
          | ok tc =>
            rw [h1, h2, h3, h4] at hmove
            simp only [Except.ok.injEq, Prod.mk.injEq] at hmove
            exact Or.inr ⟨fr, fc, tr, tc, hmove.1.symm⟩

theorem setCell_constructed (board : Board) (r c : Fin 8) (v : Option piece)
    (hb : boardConstructed board) (hv : ∀ pc, v = some pc → pc.constructed = true) :
    boardConstructed (setCell board r c v) := by
  intro i j pc h
  unfold setCell at h
  split at h
  · exact hv pc h
  · exact hb i j pc h

theorem handleMove_boardConstructed (g g1 : game) (m : Move) (sends : List Send)
    (hb : boardConstructed g.board) (hok : g.handleMove m = .ok (g1, sends)) :
    boardConstructed g1.board := by
  cases hturn : g.whoseTurn with
  | none => simp [game.handleMove, hturn] at hok
  | some t =>
    cases hpl : (findPlayers g.playerIdToPlayer m.PlayerId).1 with
    | none => simp [game.handleMove, hturn, hpl] at hok
    | some pl =>
      by_cases hne : t.id = pl.id
      · cases hr : boardIndex m.From.Row with
        | error e => simp [game.handleMove, hturn, hpl, hne, hr, bind, Except.bind] at hok
        | ok r =>
          cases hc : boardIndex m.From.Col with
          | error e => simp [game.handleMove, hturn, hpl, hne, hr, hc, bind, Except.bind] at hok
          | ok c =>
            have hr1 := boardIndex_ok _ _ hr
            have hc1 := boardIndex_ok _ _ hc
            cases hcell : g.board r c with
            | none =>
              rw [handleMove_empty g m t pl r c hturn hpl hne hr1 hc1 hcell] at hok
              cases hok; exact hb
            | some pc =>
              cases hmove : pc.move m g.board with
              | error e =>
                simp [game.handleMove, hturn, hpl, hne, hr, hc, bind, Except.bind, hcell,
                  hmove] at hok
              | ok res =>
                obtain ⟨board1, err⟩ := res
                have hb1 : boardConstructed board1 := by
                  rcases move_ok_cases pc m g.board board1 err hmove with h | ⟨fr, fc, tr, tc, h⟩
                  · rw [h]; exact hb
                  · rw [h]
                    apply setCell_constructed
                    · apply setCell_constructed _ _ _ _ hb
                      intro q hq; cases hq
                    · intro q hq
                      have hqpc : pc = q := Option.some.inj hq
                      rw [← hqpc]
                      exact hb r c pc hcell
                rcases handleMove_ok_cases g g1 m sends hok with h | ⟨b2, o, -, -, h⟩
                · rw [h]; exact hb
                · cases ho : (findPlayers g.playerIdToPlayer m.PlayerId).2 with
                  | none =>
                    have hmem := (findPlayers_fst_some _ _ _ hpl).1
                    obtain ⟨p0, rest, hps⟩ :=
                      List.exists_cons_of_ne_nil (List.ne_nil_of_mem hmem)
                    have hred : game.redrawAllScreens
                        { g with board := board1, whoseTurn := none } =
                        .error Panic.nilPointerDereference := by
                      simp only [game.redrawAllScreens, hps]
                      exact redrawLoop_none _ rfl _ _
                    simp [game.handleMove, hturn, hpl, hne, hr, hc, bind, Except.bind, hcell,
                      hmove, ho, hred] at hok
                  | some o2 =>
                    rw [handleMove_applied g m t pl o2 r c pc board1 err hturn hpl ho hne hr1 hc1
                      hcell hmove] at hok
                    cases hok
                    exact hb1
      · rw [handleMove_rejected g m t pl hturn hpl hne] at hok
        cases hok; exact hb

theorem addSecondPlayer_board (g g1 : game) (p : player) (sends : List Send)
    (hok : g.addSecondPlayer p = .ok (g1, sends)) : g1.board = g.board := by
  unfold game.addSecondPlayer at hok
  simp only [bind, Except.bind] at hok
  split at hok
  · cases hok
  · cases hok
    by_cases hw : p.isWhite = true
    · simp [hw]
    · simp [hw]

theorem run_boardConstructed (acts : List Action) (g g1 : game) (sends : List Send)
    (hb : boardConstructed g.board) (hok : g.run acts = .ok (g1, sends)) :
    boardConstructed g1.board := by
  induction acts generalizing g sends with
  | nil =>
    simp only [game.run] at hok
    cases hok
    exact hb
  | cons a rest ih =>
    obtain ⟨g2, s1, s2, hstep, hrun⟩ := run_cons_ok g g1 a rest sends hok
    refine ih g2 s2 ?_ hrun
    cases a with
    | addSecondPlayer p =>
      rw [addSecondPlayer_board g g2 p s1 hstep]
      exact hb
    | handleMove m => exact handleMove_boardConstructed g g2 m s1 hb hstep

/-- In every state a session reaches, every piece on the board is as its
constructor builds it. -/
theorem playSession_boardConstructed (id : GameId) (p : player) (acts : List Action)
    (g : game) (sends : List Send) (hok : playSession id p acts = .ok (g, sends)) :
    boardConstructed g.board := by
  obtain ⟨g0, s0, s, hnew, hrun⟩ := playSession_ok id p acts g sends hok
  have hb0 : g0.board = newBoard := by
    unfold newGame at hnew
    simp only [bind, Except.bind] at hnew
    split at hnew
    · cases hnew
    · cases hnew
      by_cases hw : p.isWhite = true
      · simp [hw]
      · simp [hw]
  exact run_boardConstructed acts g0 g s (by rw [hb0]; exact newBoard_constructed) hrun

/-! ## Panics of `handleMove` -/

/-- C19, the code at the failing input: the white host creates the game "G" and,
before anyone has joined, moves the pawn at (6,0) to (4,0). The loop of `handleMove`
finds no other player, the turn holder is set to nil, and the redraw dereferences
it: the session and the registry both end in a nil pointer dereference. The same
holds for every white host and every move of the host from an occupied cell of the
initial board. -/
theorem host_move_before_join_panics :
    (∃ g sends, playSession "G" hostA [] = .ok (g, sends) ∧
      g.playerIdToPlayer = [hostA] ∧ g.whoseTurn = some hostA ∧
      g.board 6 0 = some (newPawn true)) ∧
    playSession "G" hostA [Action.handleMove ⟨"A", ⟨6, 0⟩, ⟨4, 0⟩⟩] =
      .error Panic.nilPointerDereference ∧
    registryRun newGameManager []
      [RegistryOp.startNewGame "G" hostA, RegistryOp.incomingMove ⟨"A", ⟨6, 0⟩, ⟨4, 0⟩⟩] =
      .error Panic.nilPointerDereference ∧
    (∀ (id : GameId) (p : player) (m : Move) (r c : Fin 8) (pc : piece),
      p.isWhite = true → m.PlayerId = p.id →
      m.From.Row = ((r : Nat) : Int) → m.From.Col = ((c : Nat) : Int) →
      newBoard r c = some pc →
      playSession id p [Action.handleMove m] = .error Panic.nilPointerDereference) :=
  ⟨⟨_, _, rfl, rfl, rfl, by decide⟩, rfl, rfl, playSession_host_move_panics⟩

/-- C20, the code at the failing input: in the two-player game, the turn holder
submits moves whose source row or column is 8, -1 or -128. Only the destination is
checked by `checkBounds`; the source indexes the board directly and the index is
out of range. The same holds in every game for every move of the turn holder whose
source row or column is outside [0,7]. -/
theorem source_out_of_range_panics :
    startedGame.whoseTurn = some hostA ∧
    startedGame.playerIdToPlayer = [hostA, joinerB] ∧
    startedGame.handleMove ⟨"A", ⟨8, 0⟩, ⟨4, 0⟩⟩ = .error Panic.indexOutOfRange ∧
    startedGame.handleMove ⟨"A", ⟨-1, 0⟩, ⟨4, 0⟩⟩ = .error Panic.indexOutOfRange ∧
    startedGame.handleMove ⟨"A", ⟨6, 8⟩, ⟨4, 0⟩⟩ = .error Panic.indexOutOfRange ∧
    startedGame.handleMove ⟨"A", ⟨6, -128⟩, ⟨4, 0⟩⟩ = .error Panic.indexOutOfRange ∧
    (∀ (g : game) (m : Move) (t : player),
      g.whoseTurn = some t → t.id = m.PlayerId →
      (∃ p ∈ g.playerIdToPlayer, p.id = m.PlayerId) →
      (m.From.Row < 0 ∨ 7 < m.From.Row ∨ m.From.Col < 0 ∨ 7 < m.From.Col) →
      g.handleMove m = .error Panic.indexOutOfRange) :=
  ⟨rfl, rfl, rfl, rfl, rfl, rfl, handleMove_source_out_of_range⟩

end Gukesh
